import Mathlib

/-!
TwoWire (I2C) driver of `samd_advanced/libraries/Wire/Wire.cpp`

A shallow embedding of the master-mode request/transmit API and of the
slave-mode event handlers of `TwoWire`, over an arbitrary SERCOM peripheral.

* Bytes (`uint8_t`) are `Fin 256`; `size_t` counters are `Nat`; the `uint8_t`
  result of `requestFrom` is the `size_t` counter reduced `% 256`.
* The peripheral is a record of transition functions on an arbitrary hardware
  state `σ`; every call the driver makes on it is appended to a ghost `trace`.
* The two ring buffers are bounded FIFO queues.
-/

namespace Wire

/-- An `uint8_t`. -/
abbrev Byte := Fin 256

/-- Conversion of an `int` to `uint8_t` (used where `read_char()` feeds a byte parameter). -/
def toUInt8 (i : Int) : Byte := ⟨(i % 256).toNat, by omega⟩

/-- Direction flag handed to `startTransmissionWIRE` (the enumerators of `SERCOM.h`,
kept symbolic). -/
inductive SercomWireReadWriteFlag where
  | WIRE_WRITE_FLAG
  | WIRE_READ_FLAG
deriving DecidableEq, Repr

/-- Argument of `prepareCommandBitsWire`: the two named master commands of `SERCOM.h`
(kept symbolic) and the literal codes used by the slave handlers. -/
inductive WireCommand where
  | WIRE_MASTER_ACT_READ
  | WIRE_MASTER_ACT_STOP
  | code (n : Nat)
deriving DecidableEq, Repr

/-- One entry of the ghost trace: a state-changing call made by the driver on the
peripheral, or the invocation of an application callback. `readDataWIRE` carries the
byte the peripheral returned. -/
inductive Op where
  | startTransmissionWIRE (address : Byte) (flag : SercomWireReadWriteFlag)
  | sendDataMasterWIRE (data : Byte)
  | sendDataSlaveWIRE (data : Byte)
  | readDataWIRE (data : Byte)
  | prepareAckBitWIRE
  | prepareNackBitWIRE
  | prepareCommandBitsWire (cmd : WireCommand)
  | onReceiveCallback (n : Int)
  | onRequestCallback
deriving DecidableEq, Repr

/-- Modelled from the spec: the peripheral abstraction contract of section 6 (`SERCOM.h` and
`SERCOM.cpp` are not under src/). The peripheral is a parameter: any hardware state type `σ`
with any behaviour of the operations the driver calls. Every operation returns (a bus that
hangs a busy-wait forever is outside the model). Status queries only read the state. -/
structure SERCOM (σ : Type) where
  startTransmissionWIRE : Byte → SercomWireReadWriteFlag → σ → Bool × σ
  sendDataMasterWIRE : Byte → σ → Bool × σ
  sendDataSlaveWIRE : Byte → σ → Bool × σ
  readDataWIRE : σ → Byte × σ
  prepareAckBitWIRE : σ → σ
  prepareNackBitWIRE : σ → σ
  prepareCommandBitsWire : WireCommand → σ → σ
  isSlaveWIRE : σ → Bool
  isMasterReadOperationWIRE : σ → Bool
  isAddressMatch : σ → Bool
  isRestartDetectedWIRE : σ → Bool
  isStopDetectedWIRE : σ → Bool
  isDataReadyWIRE : σ → Bool

/-- Modelled from the spec: the fixed-capacity ring buffer of bytes of section 3
(`RingBuffer.h` is not under src/). The capacity is fixed; `data` lists the stored bytes,
oldest first. -/
structure RingBuffer where
  capacity : Nat
  data : List Byte
deriving DecidableEq, Repr

namespace RingBuffer

/-- Modelled from the spec: `clear()` empties the buffer. -/
def clear (r : RingBuffer) : RingBuffer := { r with data := [] }

/-- Modelled from the spec: `available()` is the number of stored bytes. -/
def available (r : RingBuffer) : Int := (r.data.length : Int)

/-- Modelled from the spec: `isFull()` holds when no further byte can be stored. -/
def isFull (r : RingBuffer) : Bool := decide (r.capacity ≤ r.data.length)

/-- Modelled from the spec: `store_char(c)` appends `c`; a write beyond capacity is
rejected (no overflow, no growth). -/
def store_char (c : Byte) (r : RingBuffer) : RingBuffer :=
  if r.isFull then r else { r with data := r.data ++ [c] }

/-- Modelled from the spec: `read_char()` removes and returns the oldest byte, or returns
the sentinel `-1` when the buffer is empty. -/
def read_char (r : RingBuffer) : Int × RingBuffer :=
  match r.data with
  | [] => (-1, r)
  | c :: rest => ((c.val : Int), { r with data := rest })

/-- Modelled from the spec: `peek()` returns the oldest byte without removing it, or `-1`. -/
def peek (r : RingBuffer) : Int :=
  match r.data with
  | [] => -1
  | c :: _ => (c.val : Int)

end RingBuffer

/-- The fields of a `TwoWire` instance, the state of the peripheral it is bound to
(`sercom`) and the ghost `trace` of the operations issued so far. -/
structure TwoWire (σ : Type) where
  sercom : σ
  rxBuffer : RingBuffer
  txBuffer : RingBuffer
  txAddress : Byte
  transmissionBegun : Bool
  trace : List Op

/-- The application callbacks registered with `onReceive` and `onRequest` (`none` is a null
function pointer). A callback is arbitrary application code acting on the driver. -/
structure Callbacks (σ : Type) where
  onReceiveCallback : Option (Int → TwoWire σ → TwoWire σ)
  onRequestCallback : Option (TwoWire σ → TwoWire σ)

section Calls

variable {σ : Type}

/-- The call `sercom->startTransmissionWIRE(address, flag)`. -/
def startTransmissionWIRE (P : SERCOM σ) (address : Byte) (flag : SercomWireReadWriteFlag)
    (w : TwoWire σ) : Bool × TwoWire σ :=
  ((P.startTransmissionWIRE address flag w.sercom).1,
   { w with sercom := (P.startTransmissionWIRE address flag w.sercom).2,
            trace := w.trace ++ [Op.startTransmissionWIRE address flag] })

/-- The call `sercom->sendDataMasterWIRE(data)`. -/
def sendDataMasterWIRE (P : SERCOM σ) (data : Byte) (w : TwoWire σ) : Bool × TwoWire σ :=
  ((P.sendDataMasterWIRE data w.sercom).1,
   { w with sercom := (P.sendDataMasterWIRE data w.sercom).2,
            trace := w.trace ++ [Op.sendDataMasterWIRE data] })

/-- The call `sercom->sendDataSlaveWIRE(data)`. -/
def sendDataSlaveWIRE (P : SERCOM σ) (data : Byte) (w : TwoWire σ) : Bool × TwoWire σ :=
  ((P.sendDataSlaveWIRE data w.sercom).1,
   { w with sercom := (P.sendDataSlaveWIRE data w.sercom).2,
            trace := w.trace ++ [Op.sendDataSlaveWIRE data] })

/-- The call `sercom->readDataWIRE()`. -/
def readDataWIRE (P : SERCOM σ) (w : TwoWire σ) : Byte × TwoWire σ :=
  ((P.readDataWIRE w.sercom).1,
   { w with sercom := (P.readDataWIRE w.sercom).2,
            trace := w.trace ++ [Op.readDataWIRE (P.readDataWIRE w.sercom).1] })

/-- The call `sercom->prepareAckBitWIRE()`. -/
def prepareAckBitWIRE (P : SERCOM σ) (w : TwoWire σ) : TwoWire σ :=
  { w with sercom := P.prepareAckBitWIRE w.sercom, trace := w.trace ++ [Op.prepareAckBitWIRE] }

/-- The call `sercom->prepareNackBitWIRE()`. -/
def prepareNackBitWIRE (P : SERCOM σ) (w : TwoWire σ) : TwoWire σ :=
  { w with sercom := P.prepareNackBitWIRE w.sercom, trace := w.trace ++ [Op.prepareNackBitWIRE] }

/-- The call `sercom->prepareCommandBitsWire(cmd)`. -/
def prepareCommandBitsWire (P : SERCOM σ) (cmd : WireCommand) (w : TwoWire σ) : TwoWire σ :=
  { w with sercom := P.prepareCommandBitsWire cmd w.sercom,
           trace := w.trace ++ [Op.prepareCommandBitsWire cmd] }

/-- The statement `if(onReceiveCallback) onReceiveCallback(n);`. The callback acts on the
driver state (buffers, flag, peripheral); the invocation is recorded in the trace. The trace
is ghost state, out of the callback's reach: it lists the operations the driver's own code
issues, and operations a callback issues on the peripheral are not listed in it. -/
def callOnReceive (cb : Callbacks σ) (n : Int) (w : TwoWire σ) : TwoWire σ :=
  match cb.onReceiveCallback with
  | none => w
  | some f => { f n w with trace := w.trace ++ [Op.onReceiveCallback n] }

/-- The statement `if(onRequestCallback) onRequestCallback();`. As for `callOnReceive`, the
callback acts on the driver state and the trace lists the invocation, not the operations the
callback issues itself. -/
def callOnRequest (cb : Callbacks σ) (w : TwoWire σ) : TwoWire σ :=
  match cb.onRequestCallback with
  | none => w
  | some f => { f w with trace := w.trace ++ [Op.onRequestCallback] }

end Calls

namespace TwoWire

variable {σ : Type}

/-- The loop `for (byteRead = 1; byteRead < quantity; ++byteRead)` of `requestFrom`;
the result carries the final value of `byteRead`. -/
def requestFromLoop (P : SERCOM σ) (quantity : Nat) (byteRead : Nat) (w : TwoWire σ) :
    Nat × TwoWire σ :=
  if byteRead < quantity then
    let w1 := prepareAckBitWIRE P w
    let w2 := prepareCommandBitsWire P WireCommand.WIRE_MASTER_ACT_READ w1
    let r := readDataWIRE P w2
    let w3 := { r.2 with rxBuffer := r.2.rxBuffer.store_char r.1 }
    requestFromLoop P quantity (byteRead + 1) w3
  else
    (byteRead, w)
termination_by quantity - byteRead

/-- `uint8_t TwoWire::requestFrom(uint8_t address, size_t quantity, bool stopBit)`.
The `size_t` counter `byteRead` is returned as `uint8_t`, that is `% 256`. -/
def requestFrom (P : SERCOM σ) (address : Byte) (quantity : Nat) (stopBit : Bool)
    (w : TwoWire σ) : Nat × TwoWire σ :=
  if quantity = 0 then
    (0, w)
  else
    let w0 := { w with rxBuffer := w.rxBuffer.clear }
    let s := startTransmissionWIRE P address SercomWireReadWriteFlag.WIRE_READ_FLAG w0
    if s.1 then
      let r := readDataWIRE P s.2
      let w1 := { r.2 with rxBuffer := r.2.rxBuffer.store_char r.1 }
      let l := requestFromLoop P quantity 1 w1
      let w2 := prepareNackBitWIRE P l.2
      let w3 := if stopBit then prepareCommandBitsWire P WireCommand.WIRE_MASTER_ACT_STOP w2 else w2
      (l.1 % 256, w3)
    else
      (0 % 256, s.2)

/-- `void TwoWire::beginTransmission(uint8_t address)`. -/
def beginTransmission (address : Byte) (w : TwoWire σ) : TwoWire σ :=
  { w with txAddress := address, txBuffer := w.txBuffer.clear, transmissionBegun := true }

/-- The loop `while( txBuffer.available() )` of `endTransmission`. The first component is
`some 3` when the loop body executed `return 3`, and `none` when the loop ran to its end. -/
def endTransmissionLoop (P : SERCOM σ) (w : TwoWire σ) : Option Nat × TwoWire σ :=
  if w.txBuffer.available ≠ 0 then
    let c := w.txBuffer.read_char
    let s := sendDataMasterWIRE P (toUInt8 c.1) { w with txBuffer := c.2 }
    if !s.1 then
      (some 3, prepareCommandBitsWire P WireCommand.WIRE_MASTER_ACT_STOP s.2)
    else
      endTransmissionLoop P s.2
  else
    (none, w)
termination_by w.txBuffer.data.length
decreasing_by
  simp only [sendDataMasterWIRE, RingBuffer.read_char]
  cases hd : w.txBuffer.data with
  | nil => simp [RingBuffer.available, hd] at *
  | cons c rest => simp

/-- `uint8_t TwoWire::endTransmission(bool stopBit)`. -/
def endTransmission (P : SERCOM σ) (stopBit : Bool) (w : TwoWire σ) : Nat × TwoWire σ :=
  let w0 := { w with transmissionBegun := false }
  let s := startTransmissionWIRE P w0.txAddress SercomWireReadWriteFlag.WIRE_WRITE_FLAG w0
  if !s.1 then
    (2, prepareCommandBitsWire P WireCommand.WIRE_MASTER_ACT_STOP s.2)
  else
    let l := endTransmissionLoop P s.2
    match l.1 with
    | some code => (code, l.2)
    | none =>
      let w1 := if stopBit then prepareCommandBitsWire P WireCommand.WIRE_MASTER_ACT_STOP l.2 else l.2
      (0, w1)

/-- `size_t TwoWire::write(uint8_t ucData)`. -/
def write (ucData : Byte) (w : TwoWire σ) : Nat × TwoWire σ :=
  if !w.transmissionBegun || w.txBuffer.isFull then
    (0, w)
  else
    (1, { w with txBuffer := w.txBuffer.store_char ucData })

/-- The loop `for(size_t i = 0; i < quantity; ++i)` of `write(data, quantity)`; the array
`data` is a list, `data[i]` its `i`-th element. -/
def writeLoop (data : List Byte) (quantity : Nat) (i : Nat) (w : TwoWire σ) : Nat × TwoWire σ :=
  if i < quantity then
    let r := write (data.getD i 0) w
    if r.1 = 0 then
      (i, r.2)
    else
      writeLoop data quantity (i + 1) r.2
  else
    (quantity, w)
termination_by quantity - i

/-- `size_t TwoWire::write(const uint8_t *data, size_t quantity)`. -/
def writeBytes (data : List Byte) (quantity : Nat) (w : TwoWire σ) : Nat × TwoWire σ :=
  writeLoop data quantity 0 w

/-- `int TwoWire::available(void)`. -/
def available (w : TwoWire σ) : Int := w.rxBuffer.available

/-- `int TwoWire::read(void)`. -/
def read (w : TwoWire σ) : Int × TwoWire σ :=
  (w.rxBuffer.read_char.1, { w with rxBuffer := w.rxBuffer.read_char.2 })

/-- `int TwoWire::peek(void)`. -/
def peek (w : TwoWire σ) : Int := w.rxBuffer.peek

/-- `void TwoWire::onStopDetected(void)` (SAMD51). -/
def onStopDetected (P : SERCOM σ) (cb : Callbacks σ) (w : TwoWire σ) : TwoWire σ :=
  if P.isSlaveWIRE w.sercom then
    let w1 := prepareAckBitWIRE P w
    let w2 := prepareCommandBitsWire P (WireCommand.code 0x03) w1
    let w3 := callOnReceive cb (available w2) w2
    { w3 with rxBuffer := w3.rxBuffer.clear }
  else
    w

/-- `void TwoWire::onAddressMatch(void)` (SAMD51). -/
def onAddressMatch (P : SERCOM σ) (cb : Callbacks σ) (w : TwoWire σ) : TwoWire σ :=
  if P.isSlaveWIRE w.sercom then
    let w1 := prepareAckBitWIRE P w
    let w2 := prepareCommandBitsWire P (WireCommand.code 0x03) w1
    if P.isMasterReadOperationWIRE w2.sercom then
      let w3 := { w2 with txBuffer := w2.txBuffer.clear, transmissionBegun := true }
      callOnRequest cb w3
    else
      if P.isRestartDetectedWIRE w2.sercom then
        let w3 := callOnReceive cb (available w2) w2
        { w3 with rxBuffer := w3.rxBuffer.clear }
      else
        w2
  else
    w

/-- `void TwoWire::onDataReady(void)` (SAMD51). -/
def onDataReady (P : SERCOM σ) (w : TwoWire σ) : TwoWire σ :=
  if P.isSlaveWIRE w.sercom then
    if P.isMasterReadOperationWIRE w.sercom then
      let c : Byte := 0xff
      let a := if w.txBuffer.available ≠ 0 then
          (toUInt8 w.txBuffer.read_char.1, { w with txBuffer := w.txBuffer.read_char.2 })
        else (c, w)
      let s := sendDataSlaveWIRE P a.1 a.2
      { s.2 with transmissionBegun := s.1 }
    else
      let w1 := if w.rxBuffer.isFull then
          prepareNackBitWIRE P w
        else
          let r := readDataWIRE P w
          prepareAckBitWIRE P { r.2 with rxBuffer := r.2.rxBuffer.store_char r.1 }
      prepareCommandBitsWire P (WireCommand.code 0x03) w1
  else
    w

/-- `void TwoWire::onService(void)` (the single polled dispatcher). -/
def onService (P : SERCOM σ) (cb : Callbacks σ) (w : TwoWire σ) : TwoWire σ :=
  if P.isSlaveWIRE w.sercom then
    if P.isStopDetectedWIRE w.sercom ||
        (P.isAddressMatch w.sercom && P.isRestartDetectedWIRE w.sercom
          && !P.isMasterReadOperationWIRE w.sercom) then
      let w1 := prepareAckBitWIRE P w
      let w2 := prepareCommandBitsWire P (WireCommand.code 0x03) w1
      let w3 := callOnReceive cb (available w2) w2
      { w3 with rxBuffer := w3.rxBuffer.clear }
    else if P.isAddressMatch w.sercom then
      let w1 := prepareAckBitWIRE P w
      let w2 := prepareCommandBitsWire P (WireCommand.code 0x03) w1
      if P.isMasterReadOperationWIRE w2.sercom then
        let w3 := { w2 with txBuffer := w2.txBuffer.clear, transmissionBegun := true }
        callOnRequest cb w3
      else
        w2
    else if P.isDataReadyWIRE w.sercom then
      if P.isMasterReadOperationWIRE w.sercom then
        let c : Byte := 0xff
        let a := if w.txBuffer.available ≠ 0 then
            (toUInt8 w.txBuffer.read_char.1, { w with txBuffer := w.txBuffer.read_char.2 })
          else (c, w)
        let s := sendDataSlaveWIRE P a.1 a.2
        { s.2 with transmissionBegun := s.1 }
      else
        let w1 := if w.rxBuffer.isFull then
            prepareNackBitWIRE P w
          else
            let r := readDataWIRE P w
            prepareAckBitWIRE P { r.2 with rxBuffer := r.2.rxBuffer.store_char r.1 }
        prepareCommandBitsWire P (WireCommand.code 0x03) w1
    else
      w
  else
    w

end TwoWire

/-! A concrete peripheral, for evaluating the driver on explicit inputs -/

/-- Hardware state of the demonstration peripheral: whether the address phase is
acknowledged, a data byte the remote rejects (if any), the next byte it delivers, and the
status flags. -/
structure DemoHw where
  ackAddress : Bool
  rejectData : Option Byte
  nextByte : Byte
  isSlave : Bool
  isMasterRead : Bool
  isAddressMatch : Bool
  isRestart : Bool
  isStop : Bool
  isDataReady : Bool
deriving DecidableEq, Repr

/-- The demonstration peripheral: the address phase answers `ackAddress`, a data byte is
acknowledged unless it is `rejectData`, successive reads deliver `nextByte`, `nextByte + 1`,
..., and the status queries read the flags. -/
def demoSercom : SERCOM DemoHw where
  startTransmissionWIRE := fun _ _ h => (h.ackAddress, h)
  sendDataMasterWIRE := fun d h => (decide (h.rejectData ≠ some d), h)
  sendDataSlaveWIRE := fun _ h => (true, h)
  readDataWIRE := fun h => (h.nextByte, { h with nextByte := h.nextByte + 1 })
  prepareAckBitWIRE := fun h => h
  prepareNackBitWIRE := fun h => h
  prepareCommandBitsWire := fun _ h => h
  isSlaveWIRE := fun h => h.isSlave
  isMasterReadOperationWIRE := fun h => h.isMasterRead
  isAddressMatch := fun h => h.isAddressMatch
  isRestartDetectedWIRE := fun h => h.isRestart
  isStopDetectedWIRE := fun h => h.isStop
  isDataReadyWIRE := fun h => h.isDataReady

/-- A bus master talking to a remote device that acknowledges everything. -/
def demoMasterHw : DemoHw :=
  { ackAddress := true, rejectData := none, nextByte := 0, isSlave := false,
    isMasterRead := false, isAddressMatch := false, isRestart := false, isStop := false,
    isDataReady := false }

/-- The driver as constructed (`transmissionBegun = false`, both buffers empty), with
buffers of capacity `cap`, bound to a peripheral in state `hw`. -/
def demoWire (cap : Nat) (hw : DemoHw) : TwoWire DemoHw :=
  { sercom := hw, rxBuffer := { capacity := cap, data := [] },
    txBuffer := { capacity := cap, data := [] }, txAddress := 0,
    transmissionBegun := false, trace := [] }

/-! Vocabulary of the statements -/

section Vocabulary

variable {σ : Type}

/-- The bytes delivered by the `readDataWIRE` calls recorded in a trace, in order. -/
def readsOf : List Op → List Byte
  | [] => []
  | Op.readDataWIRE b :: ops => b :: readsOf ops
  | _ :: ops => readsOf ops

/-- Whether the remote acknowledges every byte of `bs` when they are handed to
`sendDataMasterWIRE` one after the other, starting from the hardware state `h`. -/
def allAcked (P : SERCOM σ) : List Byte → σ → Bool
  | [], _ => true
  | b :: bs, h => (P.sendDataMasterWIRE b h).1 && allAcked P bs (P.sendDataMasterWIRE b h).2

/-- The statements `write(b);` for each byte `b` of `bs`, in order. -/
def writeAll (bs : List Byte) (w : TwoWire σ) : TwoWire σ :=
  bs.foldl (fun w b => (TwoWire.write b w).2) w

/-- The hardware raises an event: the handler runs on the peripheral state `h`. -/
def atEvent (h : σ) (w : TwoWire σ) : TwoWire σ := { w with sercom := h }

/-- The peripheral state once a slave handler has issued its acknowledge and command `0x03`. -/
def afterAck (P : SERCOM σ) (h : σ) : σ :=
  P.prepareCommandBitsWire (WireCommand.code 0x03) (P.prepareAckBitWIRE h)

/-- One `onDataReady` call per hardware state of `hs`, in order. -/
def dataReadyEvents (P : SERCOM σ) (hs : List σ) (w : TwoWire σ) : TwoWire σ :=
  hs.foldl (fun w h => TwoWire.onDataReady P (atEvent h w)) w

/-- One `onService` call per hardware state of `hs`, in order. -/
def serviceEvents (P : SERCOM σ) (cb : Callbacks σ) (hs : List σ) (w : TwoWire σ) : TwoWire σ :=
  hs.foldl (fun w h => TwoWire.onService P cb (atEvent h w)) w

/-- The operations a slave issues while receiving the bytes `bs`, one data-ready event each. -/
def receiveOps : List Byte → List Op
  | [] => []
  | b :: bs => Op.readDataWIRE b :: Op.prepareAckBitWIRE ::
      Op.prepareCommandBitsWire (WireCommand.code 0x03) :: receiveOps bs

/-- The arguments of the on-receive callback invocations recorded in a trace, in order. -/
def receiveCalls : List Op → List Int
  | [] => []
  | Op.onReceiveCallback n :: ops => n :: receiveCalls ops
  | _ :: ops => receiveCalls ops

/-- A slave address match in write direction without restart, as `onAddressMatch` reads it. -/
def addressMatchWrite (P : SERCOM σ) (h : σ) : Bool :=
  P.isSlaveWIRE h && !P.isMasterReadOperationWIRE (afterAck P h)
    && !P.isRestartDetectedWIRE (afterAck P h)

/-- A slave data-ready condition in receive direction, as `onDataReady` reads it. -/
def dataReadyReceive (P : SERCOM σ) (h : σ) : Bool :=
  P.isSlaveWIRE h && !P.isMasterReadOperationWIRE h

/-- Only an address match (write direction, no restart) is pending, as `onService` reads it. -/
def serviceAddressMatchWrite (P : SERCOM σ) (h : σ) : Bool :=
  P.isSlaveWIRE h && !P.isStopDetectedWIRE h && P.isAddressMatch h
    && !P.isRestartDetectedWIRE h && !P.isMasterReadOperationWIRE (afterAck P h)

/-- Only a data-ready condition (receive direction) is pending, as `onService` reads it. -/
def serviceDataReadyReceive (P : SERCOM σ) (h : σ) : Bool :=
  P.isSlaveWIRE h && !P.isStopDetectedWIRE h && !P.isAddressMatch h
    && P.isDataReadyWIRE h && !P.isMasterReadOperationWIRE h

/-- A stop condition is pending, as `onService` reads it. -/
def serviceStop (P : SERCOM σ) (h : σ) : Bool :=
  P.isSlaveWIRE h && P.isStopDetectedWIRE h

/-- The bytes the peripheral delivers to `readDataWIRE` in the hardware states `hs`. -/
def deliveredBytes (P : SERCOM σ) (hs : List σ) : List Byte :=
  hs.map (fun h => (P.readDataWIRE h).1)

/-- The slave-receive scenario on the discrete handlers: address match at `ha`, one data-ready
event per state of `hs`, and the state reached just before the stop event. -/
def receiveUntilStop (P : SERCOM σ) (cb : Callbacks σ) (ha : σ) (hs : List σ)
    (w : TwoWire σ) : TwoWire σ :=
  dataReadyEvents P hs (TwoWire.onAddressMatch P cb (atEvent ha w))

/-- The same scenario on the polled dispatcher, up to the stop event. -/
def serviceUntilStop (P : SERCOM σ) (cb : Callbacks σ) (ha : σ) (hs : List σ)
    (w : TwoWire σ) : TwoWire σ :=
  serviceEvents P cb hs (TwoWire.onService P cb (atEvent ha w))

/-- The whole slave-receive scenario on the discrete handlers, ended by a stop event at
`hstop`. -/
def receiveScenario (P : SERCOM σ) (cb : Callbacks σ) (ha : σ) (hs : List σ) (hstop : σ)
    (w : TwoWire σ) : TwoWire σ :=
  TwoWire.onStopDetected P cb (atEvent hstop (receiveUntilStop P cb ha hs w))

/-- The whole slave-receive scenario on the polled dispatcher. -/
def serviceScenario (P : SERCOM σ) (cb : Callbacks σ) (ha : σ) (hs : List σ) (hstop : σ)
    (w : TwoWire σ) : TwoWire σ :=
  TwoWire.onService P cb (atEvent hstop (serviceUntilStop P cb ha hs w))

/-- The trace of the whole slave-receive scenario for the bytes `bs`: the address match is
acknowledged, each byte is read and acknowledged, and the stop event acknowledges and then
invokes the on-receive callback. -/
def scenarioOps (bs : List Byte) : List Op :=
  [Op.prepareAckBitWIRE, Op.prepareCommandBitsWire (WireCommand.code 0x03)]
    ++ receiveOps bs
    ++ [Op.prepareAckBitWIRE, Op.prepareCommandBitsWire (WireCommand.code 0x03),
        Op.onReceiveCallback (bs.length : Int)]

/-- Hardware states of the demonstration peripheral in slave mode: an address match in write
direction, a data-ready condition delivering `b`, and a stop condition. -/
def demoAddressMatchHw : DemoHw :=
  { demoMasterHw with isSlave := true, isAddressMatch := true }

/-- A data-ready condition of the demonstration peripheral delivering the byte `b`. -/
def demoDataReadyHw (b : Byte) : DemoHw :=
  { demoMasterHw with isSlave := true, isDataReady := true, nextByte := b }

/-- A stop condition of the demonstration peripheral. -/
def demoStopHw : DemoHw :=
  { demoMasterHw with isSlave := true, isStop := true }

/-- A bus master whose remote device does not acknowledge its address. -/
def demoNackHw : DemoHw := { demoMasterHw with ackAddress := false }

/-- A driver with a transmission in progress whose transmit buffer, of capacity 2, is full. -/
def demoFullWire : TwoWire DemoHw :=
  { demoWire 2 demoMasterHw with
    txBuffer := { capacity := 2, data := [0x01, 0x02] }, transmissionBegun := true }

/-- A demonstration on-receive callback: the application reads one byte. -/
def demoCallbacks : Callbacks DemoHw :=
  { onReceiveCallback := some (fun _ w => (TwoWire.read w).2), onRequestCallback := none }

/-- A slave address match in read direction (the master reads), as `onAddressMatch` reads it. -/
def addressMatchRead (P : SERCOM σ) (h : σ) : Bool :=
  P.isSlaveWIRE h && P.isMasterReadOperationWIRE (afterAck P h)

/-- A slave address match in write direction arriving via a repeated start, as
`onAddressMatch` reads it. -/
def addressMatchRestart (P : SERCOM σ) (h : σ) : Bool :=
  P.isSlaveWIRE h && !P.isMasterReadOperationWIRE (afterAck P h)
    && P.isRestartDetectedWIRE (afterAck P h)

/-- A slave address match in write direction arriving via a repeated start, as `onService`
reads it. -/
def serviceAddressMatchRestart (P : SERCOM σ) (h : σ) : Bool :=
  P.isSlaveWIRE h && P.isAddressMatch h && P.isRestartDetectedWIRE h
    && !P.isMasterReadOperationWIRE h

/-- A slave data-ready condition in transmit direction (master-read), as `onDataReady`
reads it. -/
def dataReadyTransmit (P : SERCOM σ) (h : σ) : Bool :=
  P.isSlaveWIRE h && P.isMasterReadOperationWIRE h

/-- The bytes sent by `n` successive master-read data-ready events when the transmit buffer
holds `d`: the buffered bytes in order, then the filler `0xFF`. -/
def slaveSends : List Byte → Nat → List Byte
  | _, 0 => []
  | [], n + 1 => 0xff :: slaveSends [] n
  | b :: rest, n + 1 => b :: slaveSends rest n

/-- The state on which a slave handler invokes the on-receive callback: the event is
acknowledged, and both buffers and the in-progress flag are as the event found them. -/
def receiveEntry (P : SERCOM σ) (w : TwoWire σ) : TwoWire σ :=
  { w with sercom := afterAck P w.sercom,
           trace := w.trace ++ [Op.prepareAckBitWIRE,
             Op.prepareCommandBitsWire (WireCommand.code 0x03)] }

/-- The state on which `onAddressMatch` invokes the on-request callback at a read-direction
address match raised in hardware state `ha`: acknowledged, transmit buffer cleared,
`transmissionBegun` set. -/
def requestEntry (P : SERCOM σ) (ha : σ) (w : TwoWire σ) : TwoWire σ :=
  { w with sercom := afterAck P ha, txBuffer := w.txBuffer.clear, transmissionBegun := true,
           trace := w.trace ++ [Op.prepareAckBitWIRE,
             Op.prepareCommandBitsWire (WireCommand.code 0x03)] }

/-- The operations of the loop of `requestFrom` for the further bytes `bs`: for each byte,
prepare ACK, the continue-reading command, the data read. -/
def continueOps : List Byte → List Op
  | [] => []
  | b :: bs => Op.prepareAckBitWIRE ::
      Op.prepareCommandBitsWire WireCommand.WIRE_MASTER_ACT_READ ::
      Op.readDataWIRE b :: continueOps bs

/-- The operations of a successful `requestFrom` that reads the byte `b0` and then the bytes
`rest`: start-read, the first read, the loop, prepare NACK, and a stop command iff
`stopBit`. -/
def requestOps (address : Byte) (b0 : Byte) (rest : List Byte) (stopBit : Bool) : List Op :=
  [Op.startTransmissionWIRE address SercomWireReadWriteFlag.WIRE_READ_FLAG, Op.readDataWIRE b0]
    ++ continueOps rest
    ++ [Op.prepareNackBitWIRE]
    ++ (if stopBit then [Op.prepareCommandBitsWire WireCommand.WIRE_MASTER_ACT_STOP] else [])

/-- The position (from 0) of the first byte of `bs` that the remote rejects when the bytes are
handed to `sendDataMasterWIRE` one after the other from the hardware state `h`. -/
def firstRejected (P : SERCOM σ) : List Byte → σ → Option Nat
  | [], _ => none
  | b :: bs, h =>
    if (P.sendDataMasterWIRE b h).1 then
      (firstRejected P bs (P.sendDataMasterWIRE b h).2).map (· + 1)
    else some 0

/-- The number of stop commands in a trace. -/
def stopCount : List Op → Nat
  | [] => 0
  | Op.prepareCommandBitsWire WireCommand.WIRE_MASTER_ACT_STOP :: ops => stopCount ops + 1
  | _ :: ops => stopCount ops

/-- The bytes handed to `sendDataMasterWIRE` in a trace, in order. -/
def masterSends : List Op → List Byte
  | [] => []
  | Op.sendDataMasterWIRE b :: ops => b :: masterSends ops
  | _ :: ops => masterSends ops

/-- An address match in write direction arriving via a repeated start, nothing else pending. -/
def demoRestartHw : DemoHw :=
  { demoMasterHw with isSlave := true, isAddressMatch := true, isRestart := true }

/-- A slave that has received one byte so far. -/
def demoReceivingWire : TwoWire DemoHw :=
  { demoWire 64 demoRestartHw with rxBuffer := { capacity := 64, data := [0xAA] } }

/-- The driver as the constructor leaves it: `transmissionBegun = false` and two empty buffers
of fixed capacities, bound to a peripheral in state `hw` (`txAddress` is not initialised by
the constructor, so it is arbitrary). -/
def constructed (capRx capTx : Nat) (hw : σ) (address : Byte) : TwoWire σ :=
  { sercom := hw, rxBuffer := { capacity := capRx, data := [] },
    txBuffer := { capacity := capTx, data := [] }, txAddress := address,
    transmissionBegun := false, trace := [] }

/-- One step of a run of the driver: an API call of the application, a change of the
peripheral state by the hardware, or a slave event handler. -/
inductive Action (σ : Type) where
  | beginTransmission (address : Byte)
  | write (ucData : Byte)
  | writeBytes (data : List Byte) (quantity : Nat)
  | endTransmission (stopBit : Bool)
  | requestFrom (address : Byte) (quantity : Nat) (stopBit : Bool)
  | read
  | hardware (h : σ)
  | onStopDetected
  | onAddressMatch
  | onDataReady
  | onService

/-- The effect of one action on the driver. -/
def step (P : SERCOM σ) (cb : Callbacks σ) : Action σ → TwoWire σ → TwoWire σ
  | Action.beginTransmission a, w => TwoWire.beginTransmission a w
  | Action.write b, w => (TwoWire.write b w).2
  | Action.writeBytes data quantity, w => (TwoWire.writeBytes data quantity w).2
  | Action.endTransmission stopBit, w => (TwoWire.endTransmission P stopBit w).2
  | Action.requestFrom a quantity stopBit, w => (TwoWire.requestFrom P a quantity stopBit w).2
  | Action.read, w => (TwoWire.read w).2
  | Action.hardware h, w => atEvent h w
  | Action.onStopDetected, w => TwoWire.onStopDetected P cb w
  | Action.onAddressMatch, w => TwoWire.onAddressMatch P cb w
  | Action.onDataReady, w => TwoWire.onDataReady P w
  | Action.onService, w => TwoWire.onService P cb w

/-- The state reached from `w` by a sequence of actions. -/
def run (P : SERCOM σ) (cb : Callbacks σ) (acts : List (Action σ)) (w : TwoWire σ) :
    TwoWire σ :=
  acts.foldl (fun w a => step P cb a w) w

/-- The capacity invariant: both buffers keep their fixed capacity and hold no more bytes
than it. -/
def Fits (capRx capTx : Nat) (w : TwoWire σ) : Prop :=
  w.rxBuffer.capacity = capRx ∧ w.txBuffer.capacity = capTx ∧
    w.rxBuffer.data.length ≤ capRx ∧ w.txBuffer.data.length ≤ capTx

instance (capRx capTx : Nat) (w : TwoWire σ) : Decidable (Fits capRx capTx w) := by
  unfold Fits
  infer_instance

/-- The application callbacks act on the driver through its API only, so they keep the
capacity invariant. -/
def CallbacksFit (capRx capTx : Nat) (cb : Callbacks σ) : Prop :=
  (∀ f, cb.onReceiveCallback = some f →
    ∀ (n : Int) (w : TwoWire σ), Fits capRx capTx w → Fits capRx capTx (f n w)) ∧
  (∀ f, cb.onRequestCallback = some f →
    ∀ w : TwoWire σ, Fits capRx capTx w → Fits capRx capTx (f w))

/-- No callback registered. -/
def noCallbacks : Callbacks σ := { onReceiveCallback := none, onRequestCallback := none }

/-- Callbacks written as driver programs: the on-receive callback runs the actions `recv n`,
the on-request callback the actions `req` (run with no nested callbacks). -/
def programCallbacks (P : SERCOM σ) (recv : Int → List (Action σ)) (req : List (Action σ)) :
    Callbacks σ :=
  { onReceiveCallback := some (fun n w => run P noCallbacks (recv n) w),
    onRequestCallback := some (fun w => run P noCallbacks req w) }

/-- An address match in read direction (the master reads), nothing else pending. -/
def demoAddressMatchReadHw : DemoHw :=
  { demoMasterHw with isSlave := true, isAddressMatch := true, isMasterRead := true }

/-- A data-ready condition in transmit direction (the master reads). -/
def demoTransmitHw : DemoHw :=
  { demoMasterHw with isSlave := true, isDataReady := true, isMasterRead := true }

/-- A demonstration on-request callback: the application writes the bytes 0x10, 0x20. -/
def demoRequestCallbacks : Callbacks DemoHw :=
  { onReceiveCallback := none, onRequestCallback := some (writeAll [0x10, 0x20]) }

/-- A slave whose receive buffer, of capacity 2, is full when a further byte is ready. -/
def demoFullRxWire : TwoWire DemoHw :=
  { demoWire 2 (demoDataReadyHw 0xAA) with rxBuffer := { capacity := 2, data := [0x01, 0x02] } }

/-- A demonstration on-receive callback that leaves a mark on the driver: the application
calls `beginTransmission` with its argument as the address. -/
def demoMarkCallbacks : Callbacks DemoHw :=
  { onReceiveCallback := some (fun n w => TwoWire.beginTransmission (toUInt8 n) w),
    onRequestCallback := none }

/-- A transmission to address 0x50 with the bytes 1, 2, 3 buffered, to a remote that
acknowledges its address and rejects the data byte 2. -/
def demoRejectWire : TwoWire DemoHw :=
  { demoWire 64 { demoMasterHw with rejectData := some 0x02 } with
    txAddress := 0x50, txBuffer := { capacity := 64, data := [0x01, 0x02, 0x03] },
    transmissionBegun := true }

/-- A transmission to address 0x50 with the bytes 1, 2 buffered, to a remote that does not
acknowledge its address. -/
def demoNackWire : TwoWire DemoHw :=
  { demoWire 64 demoNackHw with
    txAddress := 0x50, txBuffer := { capacity := 64, data := [0x01, 0x02] },
    transmissionBegun := true }

/-- A run that overfills both buffers of capacity 2: three writes, a five-byte request, and
three received bytes in slave mode followed by a stop. -/
def demoRun : List (Action DemoHw) :=
  [Action.beginTransmission 0x50, Action.write 0x01, Action.write 0x02, Action.write 0x03,
   Action.requestFrom 0x51 5 true,
   Action.hardware (demoDataReadyHw 0xAA), Action.onDataReady, Action.onDataReady,
   Action.onService, Action.hardware demoStopHw, Action.onStopDetected]

end Vocabulary

/-! Theorems -/

section Theorems

open TwoWire

variable {σ : Type}

theorem toUInt8_val (b : Byte) : toUInt8 (b.val : Int) = b := by
  apply Fin.ext
  simp only [toUInt8]
  have := b.isLt
  omega

theorem readsOf_append (xs ys : List Op) : readsOf (xs ++ ys) = readsOf xs ++ readsOf ys := by
  induction xs with
  | nil => rfl
  | cons x xs ih => cases x <;> simp [readsOf, ih]

theorem RingBuffer.store_char_capacity (c : Byte) (r : RingBuffer) :
    (r.store_char c).capacity = r.capacity := by
  unfold RingBuffer.store_char
  split <;> rfl

theorem RingBuffer.store_char_data (c : Byte) (r : RingBuffer)
    (h : r.data.length ≤ r.capacity) :
    (r.store_char c).data = (r.data ++ [c]).take r.capacity := by
  unfold RingBuffer.store_char RingBuffer.isFull
  by_cases hf : r.capacity ≤ r.data.length
  · have hl : r.data.length = r.capacity := by omega
    rw [if_pos (by simpa using hf), ← hl, List.take_left]
  · rw [if_neg (by simpa using hf), List.take_of_length_le]
    simp only [List.length_append, List.length_singleton]
    omega

theorem take_take_append (cap : Nat) (d : List Byte) (c : Byte) (rest : List Byte)
    (h : d.length ≤ cap) :
    ((d ++ [c]).take cap ++ rest).take cap = (d ++ c :: rest).take cap := by
  by_cases hf : cap ≤ d.length
  · have hl : d.length = cap := by omega
    subst hl
    rw [List.take_left, List.take_left, List.take_left]
  · rw [List.take_of_length_le (l := d ++ [c])]
    · simp
    · simp only [List.length_append, List.length_singleton]
      omega

theorem requestFromLoop_succ (P : SERCOM σ) (quantity byteRead : Nat) (w : TwoWire σ)
    (h : byteRead < quantity) :
    requestFromLoop P quantity byteRead w =
      requestFromLoop P quantity (byteRead + 1)
        { sercom := (P.readDataWIRE (P.prepareCommandBitsWire WireCommand.WIRE_MASTER_ACT_READ
            (P.prepareAckBitWIRE w.sercom))).2,
          rxBuffer := w.rxBuffer.store_char
            (P.readDataWIRE (P.prepareCommandBitsWire WireCommand.WIRE_MASTER_ACT_READ
              (P.prepareAckBitWIRE w.sercom))).1,
          txBuffer := w.txBuffer, txAddress := w.txAddress,
          transmissionBegun := w.transmissionBegun,
          trace := w.trace ++ [Op.prepareAckBitWIRE,
            Op.prepareCommandBitsWire WireCommand.WIRE_MASTER_ACT_READ,
            Op.readDataWIRE (P.readDataWIRE (P.prepareCommandBitsWire
              WireCommand.WIRE_MASTER_ACT_READ (P.prepareAckBitWIRE w.sercom))).1] } := by
  conv_lhs => rw [requestFromLoop]
  simp [h, readDataWIRE, prepareCommandBitsWire, prepareAckBitWIRE]

theorem requestFromLoop_done (P : SERCOM σ) (quantity byteRead : Nat) (w : TwoWire σ)
    (h : ¬ byteRead < quantity) :
    requestFromLoop P quantity byteRead w = (byteRead, w) := by
  rw [requestFromLoop, if_neg h]

theorem requestFromLoop_spec (P : SERCOM σ) (quantity : Nat) :
    ∀ (n byteRead : Nat) (w : TwoWire σ), quantity - byteRead = n →
      w.rxBuffer.data.length ≤ w.rxBuffer.capacity →
      ∃ ops : List Op,
        (requestFromLoop P quantity byteRead w).2.trace = w.trace ++ ops ∧
        (readsOf ops).length = n ∧
        (requestFromLoop P quantity byteRead w).2.rxBuffer.capacity = w.rxBuffer.capacity ∧
        (requestFromLoop P quantity byteRead w).2.rxBuffer.data
          = (w.rxBuffer.data ++ readsOf ops).take w.rxBuffer.capacity ∧
        (requestFromLoop P quantity byteRead w).1 = max byteRead quantity ∧
        (requestFromLoop P quantity byteRead w).2.txBuffer = w.txBuffer ∧
        (requestFromLoop P quantity byteRead w).2.txAddress = w.txAddress ∧
        (requestFromLoop P quantity byteRead w).2.transmissionBegun = w.transmissionBegun := by
  intro n
  induction n with
  | zero =>
    intro i w hn hcap
    refine ⟨[], ?_⟩
    rw [requestFromLoop_done P quantity i w (by omega)]
    refine ⟨by simp, by simp [readsOf], rfl, ?_, ?_, rfl, rfl, rfl⟩
    · simp only [readsOf, List.append_nil]
      rw [List.take_of_length_le hcap]
    · show i = max i quantity
      omega
  | succ n ih =>
    intro i w hn hcap
    rw [requestFromLoop_succ P quantity i w (by omega)]
    generalize P.readDataWIRE (P.prepareCommandBitsWire
      WireCommand.WIRE_MASTER_ACT_READ (P.prepareAckBitWIRE w.sercom)) = rd
    have hd := RingBuffer.store_char_data rd.1 w.rxBuffer hcap
    have hcap2 : (w.rxBuffer.store_char rd.1).data.length
        ≤ (w.rxBuffer.store_char rd.1).capacity := by
      rw [RingBuffer.store_char_capacity, hd, List.length_take]
      omega
    obtain ⟨ops, h1, h2, h3, h4, h5, h6, h7, h8⟩ := ih (i + 1)
      { sercom := rd.2, rxBuffer := w.rxBuffer.store_char rd.1, txBuffer := w.txBuffer,
        txAddress := w.txAddress, transmissionBegun := w.transmissionBegun,
        trace := w.trace ++ [Op.prepareAckBitWIRE,
          Op.prepareCommandBitsWire WireCommand.WIRE_MASTER_ACT_READ, Op.readDataWIRE rd.1] }
      (by omega) hcap2
    refine ⟨[Op.prepareAckBitWIRE, Op.prepareCommandBitsWire WireCommand.WIRE_MASTER_ACT_READ,
      Op.readDataWIRE rd.1] ++ ops, ?_, ?_, ?_, ?_, ?_, ?_, ?_, ?_⟩
    · rw [h1]; simp
    · simp [readsOf, h2]
    · rw [h3, RingBuffer.store_char_capacity]
    · rw [h4]
      simp only [RingBuffer.store_char_capacity]
      rw [hd, take_take_append _ _ _ _ hcap]
      simp [readsOf]
    · rw [h5]; omega
    · rw [h6]
    · rw [h7]
    · rw [h8]


theorem requestFrom_zero (P : SERCOM σ) (address : Byte) (stopBit : Bool) (w : TwoWire σ) :
    requestFrom P address 0 stopBit w = (0, w) := by
  simp [requestFrom]

theorem requestFrom_nack (P : SERCOM σ) (address : Byte) (quantity : Nat) (stopBit : Bool)
    (w : TwoWire σ) (hq : quantity ≠ 0)
    (hnack : (P.startTransmissionWIRE address SercomWireReadWriteFlag.WIRE_READ_FLAG
      w.sercom).1 = false) :
    requestFrom P address quantity stopBit w =
      (0, { w with
        sercom := (P.startTransmissionWIRE address SercomWireReadWriteFlag.WIRE_READ_FLAG
          w.sercom).2,
        rxBuffer := w.rxBuffer.clear,
        trace := w.trace ++ [Op.startTransmissionWIRE address
          SercomWireReadWriteFlag.WIRE_READ_FLAG] }) := by
  simp [requestFrom, hq, startTransmissionWIRE, hnack]

theorem requestFrom_spec (P : SERCOM σ) (address : Byte) (quantity : Nat) (stopBit : Bool)
    (w : TwoWire σ) (hq : quantity ≠ 0)
    (hack : (P.startTransmissionWIRE address SercomWireReadWriteFlag.WIRE_READ_FLAG
      w.sercom).1 = true) :
    ∃ ops : List Op,
      (requestFrom P address quantity stopBit w).2.trace = w.trace ++ ops ∧
      (readsOf ops).length = quantity ∧
      (requestFrom P address quantity stopBit w).2.rxBuffer.capacity = w.rxBuffer.capacity ∧
      (requestFrom P address quantity stopBit w).2.rxBuffer.data
        = (readsOf ops).take w.rxBuffer.capacity ∧
      (requestFrom P address quantity stopBit w).1 = quantity % 256 ∧
      (requestFrom P address quantity stopBit w).2.txBuffer = w.txBuffer ∧
      (requestFrom P address quantity stopBit w).2.txAddress = w.txAddress ∧
      (requestFrom P address quantity stopBit w).2.transmissionBegun = w.transmissionBegun := by
  simp only [requestFrom, if_neg hq, startTransmissionWIRE, hack, if_true, readDataWIRE]
  generalize (P.startTransmissionWIRE address SercomWireReadWriteFlag.WIRE_READ_FLAG
    w.sercom).2 = h1
  generalize P.readDataWIRE h1 = rd
  have hd := RingBuffer.store_char_data rd.1 w.rxBuffer.clear (by simp [RingBuffer.clear])
  have hcap2 : (w.rxBuffer.clear.store_char rd.1).data.length
      ≤ (w.rxBuffer.clear.store_char rd.1).capacity := by
    rw [RingBuffer.store_char_capacity, hd, List.length_take]
    omega
  obtain ⟨ops, h1, h2, h3, h4, h5, h6, h7, h8⟩ := requestFromLoop_spec P quantity
    (quantity - 1) 1
    { sercom := rd.2, rxBuffer := w.rxBuffer.clear.store_char rd.1, txBuffer := w.txBuffer,
      txAddress := w.txAddress, transmissionBegun := w.transmissionBegun,
      trace := w.trace ++ [Op.startTransmissionWIRE address
        SercomWireReadWriteFlag.WIRE_READ_FLAG] ++ [Op.readDataWIRE rd.1] }
    rfl hcap2
  simp only [RingBuffer.store_char_capacity] at h3 h4
  rw [hd] at h4
  have hclear : w.rxBuffer.clear.capacity = w.rxBuffer.capacity := rfl
  have hcleard : w.rxBuffer.clear.data = [] := rfl
  rw [hclear, hcleard, List.nil_append] at h4
  rw [hclear] at h3
  have h4' : (requestFromLoop P quantity 1
      { sercom := rd.2, rxBuffer := w.rxBuffer.clear.store_char rd.1, txBuffer := w.txBuffer,
        txAddress := w.txAddress, transmissionBegun := w.transmissionBegun,
        trace := w.trace ++ [Op.startTransmissionWIRE address
          SercomWireReadWriteFlag.WIRE_READ_FLAG] ++ [Op.readDataWIRE rd.1] }).2.rxBuffer.data
      = List.take w.rxBuffer.capacity (rd.1 :: readsOf ops) := by
    rw [h4]
    have := take_take_append w.rxBuffer.capacity [] rd.1 (readsOf ops) (by simp)
    simpa using this
  have h5' : max 1 quantity = quantity := by omega
  rw [h5'] at h5
  dsimp only at h1 h6 h7 h8
  generalize requestFromLoop P quantity 1 _ = l at h1 h3 h4 h4' h5 h6 h7 h8 ⊢
  cases stopBit
  · refine ⟨[Op.startTransmissionWIRE address SercomWireReadWriteFlag.WIRE_READ_FLAG,
      Op.readDataWIRE rd.1] ++ ops ++ [Op.prepareNackBitWIRE], ?_, ?_, ?_, ?_, ?_, ?_, ?_, ?_⟩
    · simp [prepareNackBitWIRE, h1]
    · simp [readsOf_append, readsOf, h2]; omega
    · simpa [prepareNackBitWIRE] using h3
    · simpa [prepareNackBitWIRE, readsOf_append, readsOf] using h4'
    · simp [h5]
    · simpa [prepareNackBitWIRE] using h6
    · simpa [prepareNackBitWIRE] using h7
    · simpa [prepareNackBitWIRE] using h8
  · refine ⟨[Op.startTransmissionWIRE address SercomWireReadWriteFlag.WIRE_READ_FLAG,
      Op.readDataWIRE rd.1] ++ ops ++ [Op.prepareNackBitWIRE,
      Op.prepareCommandBitsWire WireCommand.WIRE_MASTER_ACT_STOP], ?_, ?_, ?_, ?_, ?_, ?_, ?_, ?_⟩
    · simp [prepareNackBitWIRE, prepareCommandBitsWire, h1]
    · simp [readsOf_append, readsOf, h2]; omega
    · simpa [prepareNackBitWIRE, prepareCommandBitsWire] using h3
    · simpa [prepareNackBitWIRE, prepareCommandBitsWire, readsOf_append, readsOf] using h4'
    · simp [h5]
    · simpa [prepareNackBitWIRE, prepareCommandBitsWire] using h6
    · simpa [prepareNackBitWIRE, prepareCommandBitsWire] using h7
    · simpa [prepareNackBitWIRE, prepareCommandBitsWire] using h8


/-- Claim C1, amended. For every address, every stopBit and every quantity with
`0 < quantity < 256` that does not exceed the capacity of the receive buffer, if the peripheral
acknowledges the address phase then `requestFrom` returns exactly `quantity`, and afterwards
the receive buffer holds exactly `quantity` bytes: the bytes returned by the successive
`readDataWIRE` calls of this request, in the order delivered. -/
theorem requestFrom_success (P : SERCOM σ) (address : Byte) (quantity : Nat) (stopBit : Bool)
    (w : TwoWire σ) (hq : 0 < quantity) (hcap : quantity ≤ w.rxBuffer.capacity)
    (h8 : quantity < 256)
    (hack : (P.startTransmissionWIRE address SercomWireReadWriteFlag.WIRE_READ_FLAG
      w.sercom).1 = true) :
    (requestFrom P address quantity stopBit w).1 = quantity ∧
    (requestFrom P address quantity stopBit w).2.rxBuffer.data.length = quantity ∧
    ∃ ops : List Op,
      (requestFrom P address quantity stopBit w).2.trace = w.trace ++ ops ∧
      (requestFrom P address quantity stopBit w).2.rxBuffer.data = readsOf ops := by
  obtain ⟨ops, h1, h2, _, h4, h5, _⟩ :=
    requestFrom_spec P address quantity stopBit w (by omega) hack
  rw [List.take_of_length_le (by omega)] at h4
  refine ⟨?_, ?_, ops, h1, h4⟩
  · rw [h5]; exact Nat.mod_eq_of_lt h8
  · rw [h4, h2]

/-- Claim C1, witness: two bytes requested from the demonstration peripheral, buffers of
capacity 64. -/
theorem requestFrom_success_witness :
    (requestFrom demoSercom 0x50 2 true (demoWire 64 demoMasterHw)).1 = 2 ∧
    (requestFrom demoSercom 0x50 2 true (demoWire 64 demoMasterHw)).2.rxBuffer.data.length = 2 ∧
    ∃ ops : List Op,
      (requestFrom demoSercom 0x50 2 true (demoWire 64 demoMasterHw)).2.trace
        = (demoWire 64 demoMasterHw).trace ++ ops ∧
      (requestFrom demoSercom 0x50 2 true (demoWire 64 demoMasterHw)).2.rxBuffer.data
        = readsOf ops :=
  requestFrom_success demoSercom 0x50 2 true (demoWire 64 demoMasterHw) (by decide)
    (by decide) (by decide) (by decide)

/-- Claim C1, counterexample. With an acknowledged address phase, a request for 256 bytes
returns 0 (the `size_t` count is returned as `uint8_t`), and a request for 65 bytes into a
receive buffer of capacity 64 returns 65 although the buffer then holds 64 bytes. -/
theorem requestFrom_success_counterexample :
    (demoSercom.startTransmissionWIRE 0x50 SercomWireReadWriteFlag.WIRE_READ_FLAG
      demoMasterHw).1 = true ∧
    (requestFrom demoSercom 0x50 256 true (demoWire 256 demoMasterHw)).1 = 0 ∧
    (requestFrom demoSercom 0x50 65 true (demoWire 64 demoMasterHw)).1 = 65 ∧
    (requestFrom demoSercom 0x50 65 true (demoWire 64 demoMasterHw)).2.rxBuffer.data.length
      = 64 := by
  refine ⟨rfl, ?_, ?_, ?_⟩
  · obtain ⟨_, _, _, _, _, h5, _⟩ := requestFrom_spec demoSercom 0x50 256 true
      (demoWire 256 demoMasterHw) (by decide) rfl
    rw [h5]
  · obtain ⟨_, _, _, _, _, h5, _⟩ := requestFrom_spec demoSercom 0x50 65 true
      (demoWire 64 demoMasterHw) (by decide) rfl
    rw [h5]
  · obtain ⟨ops, _, h2, _, h4, _⟩ := requestFrom_spec demoSercom 0x50 65 true
      (demoWire 64 demoMasterHw) (by decide) rfl
    rw [h4, List.length_take, h2]
    rfl

/-- Claim C8. For every driver state, address and stopBit, `requestFrom(address, 0, stopBit)`
returns 0 and performs no bus activity: the whole state, the peripheral and the trace of
issued operations included, is unchanged. -/
theorem requestFrom_zero_quantity (P : SERCOM σ) (address : Byte) (stopBit : Bool)
    (w : TwoWire σ) :
    (requestFrom P address 0 stopBit w).1 = 0 ∧
    (requestFrom P address 0 stopBit w).2 = w ∧
    (requestFrom P address 0 stopBit w).2.trace = w.trace := by
  rw [requestFrom_zero]
  exact ⟨rfl, rfl, rfl⟩

/-- Claim C9. For every address, stopBit and quantity > 0, if the peripheral does not
acknowledge the address phase then `requestFrom` returns 0, the receive buffer is empty
afterwards, and the only operation issued is the start of the read transmission: no byte is
read from the peripheral. -/
theorem requestFrom_address_nack (P : SERCOM σ) (address : Byte) (quantity : Nat)
    (stopBit : Bool) (w : TwoWire σ) (hq : 0 < quantity)
    (hnack : (P.startTransmissionWIRE address SercomWireReadWriteFlag.WIRE_READ_FLAG
      w.sercom).1 = false) :
    (requestFrom P address quantity stopBit w).1 = 0 ∧
    (requestFrom P address quantity stopBit w).2.rxBuffer.data = [] ∧
    (requestFrom P address quantity stopBit w).2.trace
      = w.trace ++ [Op.startTransmissionWIRE address SercomWireReadWriteFlag.WIRE_READ_FLAG] := by
  rw [requestFrom_nack P address quantity stopBit w (by omega) hnack]
  exact ⟨rfl, rfl, rfl⟩

/-- Claim C9, witness: three bytes requested from a remote that does not acknowledge. -/
theorem requestFrom_address_nack_witness :
    (demoSercom.startTransmissionWIRE 0x50 SercomWireReadWriteFlag.WIRE_READ_FLAG
      demoNackHw).1 = false ∧
    (requestFrom demoSercom 0x50 3 true (demoWire 64 demoNackHw)).1 = 0 ∧
    (requestFrom demoSercom 0x50 3 true (demoWire 64 demoNackHw)).2.rxBuffer.data = [] ∧
    (requestFrom demoSercom 0x50 3 true (demoWire 64 demoNackHw)).2.trace
      = (demoWire 64 demoNackHw).trace
        ++ [Op.startTransmissionWIRE 0x50 SercomWireReadWriteFlag.WIRE_READ_FLAG] :=
  ⟨rfl, requestFrom_address_nack demoSercom 0x50 3 true (demoWire 64 demoNackHw) (by decide) rfl⟩

theorem endTransmissionLoop_nil (P : SERCOM σ) (w : TwoWire σ) (h : w.txBuffer.data = []) :
    endTransmissionLoop P w = (none, w) := by
  rw [endTransmissionLoop]
  simp [RingBuffer.available, h]

theorem endTransmissionLoop_cons (P : SERCOM σ) (w : TwoWire σ) (c : Byte) (rest : List Byte)
    (h : w.txBuffer.data = c :: rest) :
    endTransmissionLoop P w =
      if (P.sendDataMasterWIRE c w.sercom).1 then
        endTransmissionLoop P
          { w with sercom := (P.sendDataMasterWIRE c w.sercom).2,
                   txBuffer := { capacity := w.txBuffer.capacity, data := rest },
                   trace := w.trace ++ [Op.sendDataMasterWIRE c] }
      else
        (some 3,
          { w with sercom := P.prepareCommandBitsWire WireCommand.WIRE_MASTER_ACT_STOP
                     (P.sendDataMasterWIRE c w.sercom).2,
                   txBuffer := { capacity := w.txBuffer.capacity, data := rest },
                   trace := w.trace ++ [Op.sendDataMasterWIRE c,
                     Op.prepareCommandBitsWire WireCommand.WIRE_MASTER_ACT_STOP] }) := by
  conv_lhs => rw [endTransmissionLoop]
  have hav : w.txBuffer.available ≠ 0 := by
    simp only [RingBuffer.available, h, List.length_cons]
    omega
  rw [if_pos hav]
  simp only [RingBuffer.read_char, h, sendDataMasterWIRE, toUInt8_val, prepareCommandBitsWire]
  cases (P.sendDataMasterWIRE c w.sercom).1 <;> simp

theorem endTransmissionLoop_code (P : SERCOM σ) :
    ∀ (d : List Byte) (w : TwoWire σ), w.txBuffer.data = d →
      (endTransmissionLoop P w).1 = if allAcked P d w.sercom then none else some 3 := by
  intro d
  induction d with
  | nil =>
    intro w h
    rw [endTransmissionLoop_nil P w h]
    rfl
  | cons c rest ih =>
    intro w h
    rw [endTransmissionLoop_cons P w c rest h]
    cases hs : (P.sendDataMasterWIRE c w.sercom).1
    · simp [allAcked, hs]
    · simp only [if_true, allAcked, hs, Bool.true_and]
      exact ih _ rfl

theorem endTransmissionLoop_frame (P : SERCOM σ) :
    ∀ (d : List Byte) (w : TwoWire σ), w.txBuffer.data = d →
      (endTransmissionLoop P w).2.transmissionBegun = w.transmissionBegun ∧
      (endTransmissionLoop P w).2.rxBuffer = w.rxBuffer ∧
      (endTransmissionLoop P w).2.txAddress = w.txAddress ∧
      (endTransmissionLoop P w).2.txBuffer.capacity = w.txBuffer.capacity := by
  intro d
  induction d with
  | nil =>
    intro w h
    rw [endTransmissionLoop_nil P w h]
    exact ⟨rfl, rfl, rfl, rfl⟩
  | cons c rest ih =>
    intro w h
    rw [endTransmissionLoop_cons P w c rest h]
    cases hs : (P.sendDataMasterWIRE c w.sercom).1
    · exact ⟨rfl, rfl, rfl, rfl⟩
    · simp only [if_true]
      exact ih _ rfl

theorem endTransmissionLoop_allAcked (P : SERCOM σ) :
    ∀ (d : List Byte) (w : TwoWire σ), w.txBuffer.data = d → allAcked P d w.sercom = true →
      (endTransmissionLoop P w).2.trace = w.trace ++ d.map Op.sendDataMasterWIRE ∧
      (endTransmissionLoop P w).2.txBuffer.data = [] := by
  intro d
  induction d with
  | nil =>
    intro w h _
    rw [endTransmissionLoop_nil P w h]
    exact ⟨by simp, h⟩
  | cons c rest ih =>
    intro w h ha
    rw [endTransmissionLoop_cons P w c rest h]
    simp only [allAcked, Bool.and_eq_true] at ha
    simp only [ha.1, if_true]
    obtain ⟨h1, h2⟩ := ih
      { w with sercom := (P.sendDataMasterWIRE c w.sercom).2,
               txBuffer := { capacity := w.txBuffer.capacity, data := rest },
               trace := w.trace ++ [Op.sendDataMasterWIRE c] } rfl ha.2
    exact ⟨by rw [h1]; simp, h2⟩

theorem allAcked_of_always (P : SERCOM σ) (hsend : ∀ b h, (P.sendDataMasterWIRE b h).1 = true) :
    ∀ (d : List Byte) (h : σ), allAcked P d h = true := by
  intro d
  induction d with
  | nil => intro _; rfl
  | cons c rest ih => intro h; simp [allAcked, hsend, ih]

theorem endTransmission_fst (P : SERCOM σ) (stopBit : Bool) (w : TwoWire σ) :
    (endTransmission P stopBit w).1 =
      if (P.startTransmissionWIRE w.txAddress SercomWireReadWriteFlag.WIRE_WRITE_FLAG
          w.sercom).1 then
        if allAcked P w.txBuffer.data
          (P.startTransmissionWIRE w.txAddress SercomWireReadWriteFlag.WIRE_WRITE_FLAG
            w.sercom).2 then 0 else 3
      else 2 := by
  have hcode := endTransmissionLoop_code P w.txBuffer.data
    (startTransmissionWIRE P w.txAddress SercomWireReadWriteFlag.WIRE_WRITE_FLAG
      { w with transmissionBegun := false }).2 rfl
  simp only [endTransmission]
  cases hs : (P.startTransmissionWIRE w.txAddress SercomWireReadWriteFlag.WIRE_WRITE_FLAG
      w.sercom).1
  · simp [startTransmissionWIRE, hs]
  · have hs2 : (startTransmissionWIRE P w.txAddress SercomWireReadWriteFlag.WIRE_WRITE_FLAG
        { w with transmissionBegun := false }).1 = true := hs
    rw [hs2]
    simp only [Bool.not_true, Bool.false_eq_true, if_false, if_true]
    generalize endTransmissionLoop P _ = l at hcode ⊢
    cases ha : allAcked P w.txBuffer.data
        (P.startTransmissionWIRE w.txAddress SercomWireReadWriteFlag.WIRE_WRITE_FLAG
          w.sercom).2
    · have hd : (startTransmissionWIRE P w.txAddress SercomWireReadWriteFlag.WIRE_WRITE_FLAG
          { w with transmissionBegun := false }).2.sercom
          = (P.startTransmissionWIRE w.txAddress SercomWireReadWriteFlag.WIRE_WRITE_FLAG
            w.sercom).2 := rfl
      rw [hd, ha] at hcode
      simp [hcode]
    · have hd : (startTransmissionWIRE P w.txAddress SercomWireReadWriteFlag.WIRE_WRITE_FLAG
          { w with transmissionBegun := false }).2.sercom
          = (P.startTransmissionWIRE w.txAddress SercomWireReadWriteFlag.WIRE_WRITE_FLAG
            w.sercom).2 := rfl
      rw [hd, ha] at hcode
      simp [hcode]

/-- Claim C2. For every driver state, stopBit and peripheral behaviour, `endTransmission`
returns 2 exactly when the address phase (write flag, saved address) is not acknowledged,
returns 3 exactly when the address phase is acknowledged and some buffered byte is rejected by
`sendDataMasterWIRE`, and returns 0 exactly when the address phase and every buffered byte are
acknowledged; it never returns 1 or 4. -/
theorem endTransmission_codes (P : SERCOM σ) (stopBit : Bool) (w : TwoWire σ) :
    ((endTransmission P stopBit w).1 = 2 ↔
      (P.startTransmissionWIRE w.txAddress SercomWireReadWriteFlag.WIRE_WRITE_FLAG
        w.sercom).1 = false) ∧
    ((endTransmission P stopBit w).1 = 3 ↔
      (P.startTransmissionWIRE w.txAddress SercomWireReadWriteFlag.WIRE_WRITE_FLAG
        w.sercom).1 = true ∧
      allAcked P w.txBuffer.data
        (P.startTransmissionWIRE w.txAddress SercomWireReadWriteFlag.WIRE_WRITE_FLAG
          w.sercom).2 = false) ∧
    ((endTransmission P stopBit w).1 = 0 ↔
      (P.startTransmissionWIRE w.txAddress SercomWireReadWriteFlag.WIRE_WRITE_FLAG
        w.sercom).1 = true ∧
      allAcked P w.txBuffer.data
        (P.startTransmissionWIRE w.txAddress SercomWireReadWriteFlag.WIRE_WRITE_FLAG
          w.sercom).2 = true) ∧
    (endTransmission P stopBit w).1 ≠ 1 ∧ (endTransmission P stopBit w).1 ≠ 4 := by
  rw [endTransmission_fst]
  cases (P.startTransmissionWIRE w.txAddress SercomWireReadWriteFlag.WIRE_WRITE_FLAG
      w.sercom).1 <;>
    cases allAcked P w.txBuffer.data
      (P.startTransmissionWIRE w.txAddress SercomWireReadWriteFlag.WIRE_WRITE_FLAG
        w.sercom).2 <;> simp


theorem endTransmission_begun (P : SERCOM σ) (stopBit : Bool) (w : TwoWire σ) :
    (endTransmission P stopBit w).2.transmissionBegun = false := by
  have hfr := (endTransmissionLoop_frame P w.txBuffer.data
    (startTransmissionWIRE P w.txAddress SercomWireReadWriteFlag.WIRE_WRITE_FLAG
      { w with transmissionBegun := false }).2 rfl).1
  simp only [endTransmission]
  generalize endTransmissionLoop P _ = l at hfr ⊢
  split
  · rfl
  · split
    · exact hfr
    · cases stopBit
      · exact hfr
      · exact hfr

theorem endTransmission_success (P : SERCOM σ) (stopBit : Bool) (w : TwoWire σ)
    (hack : (P.startTransmissionWIRE w.txAddress SercomWireReadWriteFlag.WIRE_WRITE_FLAG
      w.sercom).1 = true)
    (hall : allAcked P w.txBuffer.data
      (P.startTransmissionWIRE w.txAddress SercomWireReadWriteFlag.WIRE_WRITE_FLAG
        w.sercom).2 = true) :
    (endTransmission P stopBit w).2.trace =
      w.trace ++ (Op.startTransmissionWIRE w.txAddress SercomWireReadWriteFlag.WIRE_WRITE_FLAG
        :: w.txBuffer.data.map Op.sendDataMasterWIRE)
        ++ (if stopBit then [Op.prepareCommandBitsWire WireCommand.WIRE_MASTER_ACT_STOP]
            else []) ∧
    (endTransmission P stopBit w).2.txBuffer.data = [] := by
  have hcode := endTransmissionLoop_code P w.txBuffer.data
    (startTransmissionWIRE P w.txAddress SercomWireReadWriteFlag.WIRE_WRITE_FLAG
      { w with transmissionBegun := false }).2 rfl
  have hsp := endTransmissionLoop_allAcked P w.txBuffer.data
    (startTransmissionWIRE P w.txAddress SercomWireReadWriteFlag.WIRE_WRITE_FLAG
      { w with transmissionBegun := false }).2 rfl hall
  have hd : (startTransmissionWIRE P w.txAddress SercomWireReadWriteFlag.WIRE_WRITE_FLAG
      { w with transmissionBegun := false }).2.sercom
      = (P.startTransmissionWIRE w.txAddress SercomWireReadWriteFlag.WIRE_WRITE_FLAG
        w.sercom).2 := rfl
  have hs2 : (startTransmissionWIRE P w.txAddress SercomWireReadWriteFlag.WIRE_WRITE_FLAG
      { w with transmissionBegun := false }).1 = true := hack
  have ht : (startTransmissionWIRE P w.txAddress SercomWireReadWriteFlag.WIRE_WRITE_FLAG
      { w with transmissionBegun := false }).2.trace
      = w.trace ++ [Op.startTransmissionWIRE w.txAddress
        SercomWireReadWriteFlag.WIRE_WRITE_FLAG] := rfl
  rw [hd, hall] at hcode
  rw [ht] at hsp
  simp only [endTransmission]
  rw [hs2]
  simp only [Bool.not_true, Bool.false_eq_true, if_false, if_true] at hcode ⊢
  generalize endTransmissionLoop P _ = l at hcode hsp ⊢
  rw [hcode]
  cases stopBit
  · simp [hsp.1, hsp.2]
  · simp [prepareCommandBitsWire, hsp.1, hsp.2]

theorem write_accept (b : Byte) (w : TwoWire σ) (hb : w.transmissionBegun = true)
    (hf : w.txBuffer.data.length < w.txBuffer.capacity) :
    write b w = (1, { w with txBuffer := { capacity := w.txBuffer.capacity, data := w.txBuffer.data ++ [b] } }) := by
  have hnf : w.txBuffer.isFull = false := by
    simp only [RingBuffer.isFull, decide_eq_false_iff_not]
    omega
  simp [write, hb, hnf, RingBuffer.store_char]

theorem write_reject (b : Byte) (w : TwoWire σ)
    (h : w.transmissionBegun = false ∨ w.txBuffer.capacity ≤ w.txBuffer.data.length) :
    write b w = (0, w) := by
  rcases h with h | h
  · simp [write, h]
  · have hfull : w.txBuffer.isFull = true := by
      simp only [RingBuffer.isFull, decide_eq_true_eq]
      exact h
    simp [write, hfull]

theorem writeAll_spec :
    ∀ (bs : List Byte) (w : TwoWire σ), w.transmissionBegun = true →
      w.txBuffer.data.length + bs.length ≤ w.txBuffer.capacity →
      writeAll bs w = { w with txBuffer := { capacity := w.txBuffer.capacity, data := w.txBuffer.data ++ bs } } := by
  intro bs
  induction bs with
  | nil => intro w _ _; simp [writeAll]
  | cons b bs ih =>
    intro w hb hlen
    simp only [List.length_cons] at hlen
    have hstep : writeAll (b :: bs) w = writeAll bs (write b w).2 := rfl
    rw [hstep, write_accept b w hb (by omega)]
    dsimp only
    rw [ih]
    · simp
    · exact hb
    · simp only [List.length_append, List.length_singleton]
      omega

/-- Claim C3. For every address `a` and every list of bytes `bs` no longer than the transmit
buffer's capacity, with a peripheral that acknowledges the address phase and every byte of
`bs` (as one that always acknowledges does): `beginTransmission(a)`, then `write(b)` for each
`b` of `bs`, then `endTransmission(true)` returns 0, the operations issued are the write-start
at `a`, the bytes of `bs` in the order written and one stop command, and the transmit buffer
is empty afterwards, also after a following `beginTransmission`. -/
theorem transmission_cycle (P : SERCOM σ) (a : Byte) (bs : List Byte) (w : TwoWire σ)
    (hstart : (P.startTransmissionWIRE a SercomWireReadWriteFlag.WIRE_WRITE_FLAG
      w.sercom).1 = true)
    (hsend : allAcked P bs
      (P.startTransmissionWIRE a SercomWireReadWriteFlag.WIRE_WRITE_FLAG w.sercom).2 = true)
    (hlen : bs.length ≤ w.txBuffer.capacity) :
    (endTransmission P true (writeAll bs (beginTransmission a w))).1 = 0 ∧
    (endTransmission P true (writeAll bs (beginTransmission a w))).2.trace =
      w.trace ++ [Op.startTransmissionWIRE a SercomWireReadWriteFlag.WIRE_WRITE_FLAG]
        ++ bs.map Op.sendDataMasterWIRE
        ++ [Op.prepareCommandBitsWire WireCommand.WIRE_MASTER_ACT_STOP] ∧
    (endTransmission P true (writeAll bs (beginTransmission a w))).2.txBuffer.data = [] ∧
    ∀ a2 : Byte, (beginTransmission a2
      (endTransmission P true (writeAll bs (beginTransmission a w))).2).txBuffer.data = [] := by
  have hw : writeAll bs (beginTransmission a w) =
      { w with txAddress := a, txBuffer := { capacity := w.txBuffer.capacity, data := bs },
               transmissionBegun := true } := by
    rw [writeAll_spec bs (beginTransmission a w) rfl
      (by simpa [beginTransmission, RingBuffer.clear] using hlen)]
    simp [beginTransmission, RingBuffer.clear]
  rw [hw]
  refine ⟨?_, ?_, ?_, ?_⟩
  · rw [endTransmission_fst]
    simp [hstart, hsend]
  · rw [(endTransmission_success P true _ hstart hsend).1]
    simp
  · exact (endTransmission_success P true _ hstart hsend).2
  · intro a2
    rfl

/-- Claim C3, witness: `beginTransmission(0x50)`, `write(0x01)`, `write(0x02)`,
`endTransmission(true)` on the demonstration peripheral. -/
theorem transmission_cycle_witness :
    (endTransmission demoSercom true
      (writeAll [0x01, 0x02] (beginTransmission 0x50 (demoWire 64 demoMasterHw)))).1 = 0 ∧
    (endTransmission demoSercom true
      (writeAll [0x01, 0x02] (beginTransmission 0x50 (demoWire 64 demoMasterHw)))).2.trace =
      [Op.startTransmissionWIRE 0x50 SercomWireReadWriteFlag.WIRE_WRITE_FLAG,
       Op.sendDataMasterWIRE 0x01, Op.sendDataMasterWIRE 0x02,
       Op.prepareCommandBitsWire WireCommand.WIRE_MASTER_ACT_STOP] ∧
    (endTransmission demoSercom true
      (writeAll [0x01, 0x02] (beginTransmission 0x50 (demoWire 64 demoMasterHw)))).2.txBuffer.data
      = [] :=
  have h := transmission_cycle demoSercom 0x50 [0x01, 0x02] (demoWire 64 demoMasterHw)
    rfl (by decide) (by decide)
  ⟨h.1, h.2.1, h.2.2.1⟩

/-- Claim C4. For every driver state and every outcome of `endTransmission` (0, 2 or 3), the
in-progress flag is false when `endTransmission` returns, and a `write(b)` issued right after
it returns 0 and leaves the driver state, the transmit buffer included, unchanged. -/
theorem write_after_endTransmission (P : SERCOM σ) (stopBit : Bool) (w : TwoWire σ) (b : Byte) :
    ((endTransmission P stopBit w).1 = 0 ∨ (endTransmission P stopBit w).1 = 2 ∨
      (endTransmission P stopBit w).1 = 3) ∧
    (endTransmission P stopBit w).2.transmissionBegun = false ∧
    (write b (endTransmission P stopBit w).2).1 = 0 ∧
    (write b (endTransmission P stopBit w).2).2 = (endTransmission P stopBit w).2 := by
  have hb := endTransmission_begun P stopBit w
  rw [write_reject b _ (Or.inl hb)]
  refine ⟨?_, hb, rfl, rfl⟩
  rw [endTransmission_fst]
  split
  · split
    · exact Or.inl rfl
    · exact Or.inr (Or.inr rfl)
  · exact Or.inr (Or.inl rfl)

/-- Claim C5. For every driver state whose transmit buffer is full, whether or not a
transmission is in progress, and every byte `b`, `write(b)` returns 0 and the state (transmit
buffer, in-progress flag, receive buffer) is unchanged. -/
theorem write_full (b : Byte) (w : TwoWire σ) (hfull : w.txBuffer.isFull = true) :
    (write b w).1 = 0 ∧ (write b w).2 = w := by
  simp [write, hfull]

/-- Claim C5, witness: a transmission in progress whose buffer of capacity 2 holds 2 bytes. -/
theorem write_full_witness :
    demoFullWire.txBuffer.isFull = true ∧
    (write 0x03 demoFullWire).1 = 0 ∧ (write 0x03 demoFullWire).2 = demoFullWire :=
  ⟨by decide, write_full 0x03 demoFullWire (by decide)⟩

/-- Claim C6. For every driver state and byte `b`, `write(b)` returns 1 if and only if a
transmission is in progress and the transmit buffer is not full, and returns 0 otherwise; when
it returns 1 the transmit buffer is the old contents with `b` appended at the end, and when it
returns 0 the state is unchanged. -/
theorem write_iff (b : Byte) (w : TwoWire σ) :
    ((write b w).1 = 1 ↔ (w.transmissionBegun = true ∧ w.txBuffer.isFull = false)) ∧
    ((write b w).1 = 1 ∨ (write b w).1 = 0) ∧
    ((write b w).1 = 1 → (write b w).2.txBuffer.data = w.txBuffer.data ++ [b]) ∧
    ((write b w).1 = 0 → (write b w).2 = w) := by
  cases hb : w.transmissionBegun <;> cases hf : w.txBuffer.isFull <;>
    simp [write, hb, hf, RingBuffer.store_char]

theorem writeLoop_done (data : List Byte) (quantity i : Nat) (w : TwoWire σ)
    (h : ¬ i < quantity) : writeLoop data quantity i w = (quantity, w) := by
  rw [writeLoop, if_neg h]

theorem writeLoop_step (data : List Byte) (quantity i : Nat) (w : TwoWire σ)
    (h : i < quantity) :
    writeLoop data quantity i w =
      if (write (data.getD i 0) w).1 = 0 then (i, (write (data.getD i 0) w).2)
      else writeLoop data quantity (i + 1) (write (data.getD i 0) w).2 := by
  conv_lhs => rw [writeLoop]
  simp only [if_pos h]

theorem writeLoop_spec (data : List Byte) (quantity : Nat) (hlen : data.length = quantity) :
    ∀ (n i : Nat) (w : TwoWire σ), quantity - i = n → i ≤ quantity →
      writeLoop data quantity i w =
        (i + (if w.transmissionBegun then
                min (quantity - i) (w.txBuffer.capacity - w.txBuffer.data.length) else 0),
         { w with txBuffer :=
            { capacity := w.txBuffer.capacity,
              data := w.txBuffer.data ++ (data.drop i).take
                (if w.transmissionBegun then
                  min (quantity - i) (w.txBuffer.capacity - w.txBuffer.data.length)
                 else 0) } }) := by
  intro n
  induction n with
  | zero =>
    intro i w hn hi
    rw [writeLoop_done data quantity i w (by omega)]
    have h0 : quantity - i = 0 := hn
    have hiq : i = quantity := by omega
    rcases w with ⟨sc, rx, ⟨cap, d⟩, addr, begun, tr⟩
    cases begun <;> simp [h0, hiq]
  | succ n ih =>
    intro i w hn hi
    rw [writeLoop_step data quantity i w (by omega)]
    rcases w with ⟨sc, rx, ⟨cap, d⟩, addr, begun, tr⟩
    cases begun
    · rw [write_reject _ _ (Or.inl rfl)]
      simp
    · by_cases hfull : cap ≤ d.length
      · rw [write_reject _ _ (Or.inr hfull)]
        have h0 : cap - d.length = 0 := by omega
        simp [h0]
      · rw [write_accept _ _ rfl (by simp only; omega)]
        simp only [one_ne_zero, if_false]
        rw [ih (i + 1) _ (by omega) (by omega)]
        simp only [if_true, List.length_append, List.length_singleton]
        have hk : min (quantity - i) (cap - d.length)
            = min (quantity - (i + 1)) (cap - (d.length + 1)) + 1 := by omega
        have hdrop : data.drop i = data.getD i 0 :: data.drop (i + 1) := by
          have hil : i < data.length := by omega
          rw [List.drop_eq_getElem_cons hil, List.getD_eq_getElem _ _ hil]
        rw [hk, hdrop, List.take_succ_cons]
        refine Prod.ext ?_ ?_
        · show _ = _
          omega
        · simp

/-- Claim C7. For every driver state and every byte array `data` of length `quantity`,
`write(data, quantity)` returns `k`, where `k = 0` if no transmission is in progress and
otherwise `k` is the smaller of `quantity` and the free space of the transmit buffer;
afterwards the transmit buffer is the old contents followed by the first `k` bytes of `data`
in order, and nothing else of the driver state has changed. -/
theorem writeBytes_count (data : List Byte) (quantity : Nat) (w : TwoWire σ)
    (hlen : data.length = quantity) :
    (writeBytes data quantity w).1 =
      (if w.transmissionBegun then
        min quantity (w.txBuffer.capacity - w.txBuffer.data.length) else 0) ∧
    (writeBytes data quantity w).2.txBuffer.data =
      w.txBuffer.data ++ data.take
        (if w.transmissionBegun then
          min quantity (w.txBuffer.capacity - w.txBuffer.data.length) else 0) ∧
    (writeBytes data quantity w).2.txBuffer.capacity = w.txBuffer.capacity ∧
    (writeBytes data quantity w).2.rxBuffer = w.rxBuffer ∧
    (writeBytes data quantity w).2.transmissionBegun = w.transmissionBegun ∧
    (writeBytes data quantity w).2.trace = w.trace := by
  rw [writeBytes, writeLoop_spec data quantity hlen quantity 0 w rfl (Nat.zero_le _)]
  simp

/-- Claim C7, witness: four bytes written into an empty transmit buffer of capacity 3. -/
theorem writeBytes_count_witness :
    (writeBytes [1, 2, 3, 4] 4 (beginTransmission 0x50 (demoWire 3 demoMasterHw))).1 = 3 ∧
    (writeBytes [1, 2, 3, 4] 4
      (beginTransmission 0x50 (demoWire 3 demoMasterHw))).2.txBuffer.data = [1, 2, 3] :=
  have h := writeBytes_count [1, 2, 3, 4] 4 (beginTransmission 0x50 (demoWire 3 demoMasterHw))
    rfl
  ⟨h.1, h.2.1⟩

theorem receiveCalls_append (xs ys : List Op) :
    receiveCalls (xs ++ ys) = receiveCalls xs ++ receiveCalls ys := by
  induction xs with
  | nil => rfl
  | cons x xs ih => cases x <;> simp [receiveCalls, ih]

theorem receiveCalls_receiveOps (bs : List Byte) : receiveCalls (receiveOps bs) = [] := by
  induction bs with
  | nil => rfl
  | cons b bs ih => simp [receiveOps, receiveCalls, ih]

theorem onAddressMatch_write (P : SERCOM σ) (cb : Callbacks σ) (w : TwoWire σ)
    (h : addressMatchWrite P w.sercom = true) :
    onAddressMatch P cb w =
      { w with sercom := afterAck P w.sercom,
               trace := w.trace ++ [Op.prepareAckBitWIRE,
                 Op.prepareCommandBitsWire (WireCommand.code 0x03)] } := by
  simp only [addressMatchWrite, Bool.and_eq_true, Bool.not_eq_true'] at h
  obtain ⟨⟨h1, h2⟩, h3⟩ := h
  simp only [afterAck] at h2 h3
  simp [onAddressMatch, h1, prepareAckBitWIRE, prepareCommandBitsWire, h2, h3, afterAck]

theorem onService_addressMatch_write (P : SERCOM σ) (cb : Callbacks σ) (w : TwoWire σ)
    (h : serviceAddressMatchWrite P w.sercom = true) :
    onService P cb w =
      { w with sercom := afterAck P w.sercom,
               trace := w.trace ++ [Op.prepareAckBitWIRE,
                 Op.prepareCommandBitsWire (WireCommand.code 0x03)] } := by
  simp only [serviceAddressMatchWrite, Bool.and_eq_true, Bool.not_eq_true'] at h
  obtain ⟨⟨⟨⟨h1, h2⟩, h3⟩, h4⟩, h5⟩ := h
  simp only [afterAck] at h5
  simp [onService, h1, h2, h3, h4, prepareAckBitWIRE, prepareCommandBitsWire, h5, afterAck]

theorem onDataReady_receive (P : SERCOM σ) (w : TwoWire σ)
    (h : dataReadyReceive P w.sercom = true)
    (hroom : w.rxBuffer.data.length < w.rxBuffer.capacity) :
    onDataReady P w =
      { w with sercom := afterAck P (P.readDataWIRE w.sercom).2,
               rxBuffer := { capacity := w.rxBuffer.capacity,
                             data := w.rxBuffer.data ++ [(P.readDataWIRE w.sercom).1] },
               trace := w.trace ++ [Op.readDataWIRE (P.readDataWIRE w.sercom).1,
                 Op.prepareAckBitWIRE, Op.prepareCommandBitsWire (WireCommand.code 0x03)] } := by
  simp only [dataReadyReceive, Bool.and_eq_true, Bool.not_eq_true'] at h
  have hnf : w.rxBuffer.isFull = false := by
    simp only [RingBuffer.isFull, decide_eq_false_iff_not]
    omega
  simp [onDataReady, h.1, h.2, hnf, readDataWIRE, prepareAckBitWIRE, prepareCommandBitsWire,
    RingBuffer.store_char, afterAck]

theorem onService_dataReady_receive (P : SERCOM σ) (cb : Callbacks σ) (w : TwoWire σ)
    (h : serviceDataReadyReceive P w.sercom = true)
    (hroom : w.rxBuffer.data.length < w.rxBuffer.capacity) :
    onService P cb w =
      { w with sercom := afterAck P (P.readDataWIRE w.sercom).2,
               rxBuffer := { capacity := w.rxBuffer.capacity,
                             data := w.rxBuffer.data ++ [(P.readDataWIRE w.sercom).1] },
               trace := w.trace ++ [Op.readDataWIRE (P.readDataWIRE w.sercom).1,
                 Op.prepareAckBitWIRE, Op.prepareCommandBitsWire (WireCommand.code 0x03)] } := by
  simp only [serviceDataReadyReceive, Bool.and_eq_true, Bool.not_eq_true'] at h
  obtain ⟨⟨⟨⟨h1, h2⟩, h3⟩, h4⟩, h5⟩ := h
  have hnf : w.rxBuffer.isFull = false := by
    simp only [RingBuffer.isFull, decide_eq_false_iff_not]
    omega
  simp [onService, h1, h2, h3, h4, h5, hnf, readDataWIRE, prepareAckBitWIRE,
    prepareCommandBitsWire, RingBuffer.store_char, afterAck]

theorem onStopDetected_slave (P : SERCOM σ) (cb : Callbacks σ) (w : TwoWire σ)
    (f : Int → TwoWire σ → TwoWire σ) (hf : cb.onReceiveCallback = some f)
    (h : P.isSlaveWIRE w.sercom = true) :
    onStopDetected P cb w =
      { f (w.rxBuffer.data.length : Int)
          { w with sercom := afterAck P w.sercom,
                   trace := w.trace ++ [Op.prepareAckBitWIRE,
                     Op.prepareCommandBitsWire (WireCommand.code 0x03)] } with
        rxBuffer := (f (w.rxBuffer.data.length : Int)
          { w with sercom := afterAck P w.sercom,
                   trace := w.trace ++ [Op.prepareAckBitWIRE,
                     Op.prepareCommandBitsWire (WireCommand.code 0x03)] }).rxBuffer.clear,
        trace := w.trace ++ [Op.prepareAckBitWIRE,
          Op.prepareCommandBitsWire (WireCommand.code 0x03),
          Op.onReceiveCallback (w.rxBuffer.data.length : Int)] } := by
  simp [onStopDetected, h, callOnReceive, hf, available, RingBuffer.available,
    prepareAckBitWIRE, prepareCommandBitsWire, afterAck]

theorem onService_stop (P : SERCOM σ) (cb : Callbacks σ) (w : TwoWire σ)
    (h : serviceStop P w.sercom = true) :
    onService P cb w = onStopDetected P cb w := by
  simp only [serviceStop, Bool.and_eq_true] at h
  simp [onService, onStopDetected, h.1, h.2]


theorem dataReadyEvents_receive (P : SERCOM σ) :
    ∀ (hs : List σ) (w : TwoWire σ), (∀ h ∈ hs, dataReadyReceive P h = true) →
      w.rxBuffer.data.length + hs.length ≤ w.rxBuffer.capacity →
      (dataReadyEvents P hs w).rxBuffer =
        { capacity := w.rxBuffer.capacity, data := w.rxBuffer.data ++ deliveredBytes P hs } ∧
      (dataReadyEvents P hs w).trace = w.trace ++ receiveOps (deliveredBytes P hs) := by
  intro hs
  induction hs with
  | nil => intro w _ _; simp [dataReadyEvents, deliveredBytes, receiveOps]
  | cons h hs ih =>
    intro w hall hlen
    simp only [List.length_cons] at hlen
    have hstep : dataReadyEvents P (h :: hs) w
        = dataReadyEvents P hs (onDataReady P (atEvent h w)) := rfl
    have hh : dataReadyReceive P (atEvent h w).sercom = true := hall h (by simp)
    have hroom : (atEvent h w).rxBuffer.data.length < (atEvent h w).rxBuffer.capacity := by
      show w.rxBuffer.data.length < w.rxBuffer.capacity
      omega
    rw [hstep, onDataReady_receive P _ hh hroom]
    obtain ⟨h1, h2⟩ := ih
      { atEvent h w with
        sercom := afterAck P (P.readDataWIRE (atEvent h w).sercom).2,
        rxBuffer := { capacity := (atEvent h w).rxBuffer.capacity,
                      data := (atEvent h w).rxBuffer.data
                        ++ [(P.readDataWIRE (atEvent h w).sercom).1] },
        trace := (atEvent h w).trace ++ [Op.readDataWIRE (P.readDataWIRE (atEvent h w).sercom).1,
          Op.prepareAckBitWIRE, Op.prepareCommandBitsWire (WireCommand.code 0x03)] }
      (fun x hx => hall x (by simp [hx]))
      (by simp only [atEvent, List.length_append, List.length_singleton]; omega)
    rw [h1, h2]
    simp [atEvent, deliveredBytes, receiveOps]

theorem serviceEvents_receive (P : SERCOM σ) (cb : Callbacks σ) :
    ∀ (hs : List σ) (w : TwoWire σ), (∀ h ∈ hs, serviceDataReadyReceive P h = true) →
      w.rxBuffer.data.length + hs.length ≤ w.rxBuffer.capacity →
      (serviceEvents P cb hs w).rxBuffer =
        { capacity := w.rxBuffer.capacity, data := w.rxBuffer.data ++ deliveredBytes P hs } ∧
      (serviceEvents P cb hs w).trace = w.trace ++ receiveOps (deliveredBytes P hs) := by
  intro hs
  induction hs with
  | nil => intro w _ _; simp [serviceEvents, deliveredBytes, receiveOps]
  | cons h hs ih =>
    intro w hall hlen
    simp only [List.length_cons] at hlen
    have hstep : serviceEvents P cb (h :: hs) w
        = serviceEvents P cb hs (onService P cb (atEvent h w)) := rfl
    have hh : serviceDataReadyReceive P (atEvent h w).sercom = true := hall h (by simp)
    have hroom : (atEvent h w).rxBuffer.data.length < (atEvent h w).rxBuffer.capacity := by
      show w.rxBuffer.data.length < w.rxBuffer.capacity
      omega
    rw [hstep, onService_dataReady_receive P cb _ hh hroom]
    obtain ⟨h1, h2⟩ := ih
      { atEvent h w with
        sercom := afterAck P (P.readDataWIRE (atEvent h w).sercom).2,
        rxBuffer := { capacity := (atEvent h w).rxBuffer.capacity,
                      data := (atEvent h w).rxBuffer.data
                        ++ [(P.readDataWIRE (atEvent h w).sercom).1] },
        trace := (atEvent h w).trace ++ [Op.readDataWIRE (P.readDataWIRE (atEvent h w).sercom).1,
          Op.prepareAckBitWIRE, Op.prepareCommandBitsWire (WireCommand.code 0x03)] }
      (fun x hx => hall x (by simp [hx]))
      (by simp only [atEvent, List.length_append, List.length_singleton]; omega)
    rw [h1, h2]
    simp [atEvent, deliveredBytes, receiveOps]

theorem receiveUntilStop_spec (P : SERCOM σ) (cb : Callbacks σ) (ha : σ) (hs : List σ)
    (w : TwoWire σ) (hempty : w.rxBuffer.data = []) (hcap : hs.length ≤ w.rxBuffer.capacity)
    (hA : addressMatchWrite P ha = true) (hD : ∀ h ∈ hs, dataReadyReceive P h = true) :
    (receiveUntilStop P cb ha hs w).rxBuffer.data = deliveredBytes P hs ∧
    (receiveUntilStop P cb ha hs w).trace = w.trace ++ [Op.prepareAckBitWIRE,
      Op.prepareCommandBitsWire (WireCommand.code 0x03)] ++ receiveOps (deliveredBytes P hs) := by
  unfold receiveUntilStop
  rw [onAddressMatch_write P cb (atEvent ha w) hA]
  obtain ⟨h1, h2⟩ := dataReadyEvents_receive P hs
    { atEvent ha w with
        sercom := afterAck P (atEvent ha w).sercom,
        trace := (atEvent ha w).trace ++ [Op.prepareAckBitWIRE,
          Op.prepareCommandBitsWire (WireCommand.code 0x03)] } hD
    (by simp only [atEvent, hempty, List.length_nil]; omega)
  rw [h1, h2]
  simp [atEvent, hempty]

theorem serviceUntilStop_spec (P : SERCOM σ) (cb : Callbacks σ) (ha : σ) (hs : List σ)
    (w : TwoWire σ) (hempty : w.rxBuffer.data = []) (hcap : hs.length ≤ w.rxBuffer.capacity)
    (hA : serviceAddressMatchWrite P ha = true)
    (hD : ∀ h ∈ hs, serviceDataReadyReceive P h = true) :
    (serviceUntilStop P cb ha hs w).rxBuffer.data = deliveredBytes P hs ∧
    (serviceUntilStop P cb ha hs w).trace = w.trace ++ [Op.prepareAckBitWIRE,
      Op.prepareCommandBitsWire (WireCommand.code 0x03)] ++ receiveOps (deliveredBytes P hs) := by
  unfold serviceUntilStop
  rw [onService_addressMatch_write P cb (atEvent ha w) hA]
  obtain ⟨h1, h2⟩ := serviceEvents_receive P cb hs
    { atEvent ha w with
        sercom := afterAck P (atEvent ha w).sercom,
        trace := (atEvent ha w).trace ++ [Op.prepareAckBitWIRE,
          Op.prepareCommandBitsWire (WireCommand.code 0x03)] } hD
    (by simp only [atEvent, hempty, List.length_nil]; omega)
  rw [h1, h2]
  simp [atEvent, hempty]


theorem stop_after_receive (P : SERCOM σ) (cb : Callbacks σ)
    (f : Int → TwoWire σ → TwoWire σ) (hf : cb.onReceiveCallback = some f) (hstop : σ)
    (hslave : P.isSlaveWIRE hstop = true) (w0 w : TwoWire σ) (bs : List Byte)
    (hdata : w.rxBuffer.data = bs)
    (htrace : w.trace = w0.trace ++ [Op.prepareAckBitWIRE,
      Op.prepareCommandBitsWire (WireCommand.code 0x03)] ++ receiveOps bs) :
    (∃ wcb : TwoWire σ, wcb.rxBuffer.data = bs ∧
      onStopDetected P cb (atEvent hstop w) =
        { f (bs.length : Int) wcb with
          rxBuffer := (f (bs.length : Int) wcb).rxBuffer.clear,
          trace := (onStopDetected P cb (atEvent hstop w)).trace }) ∧
    (onStopDetected P cb (atEvent hstop w)).trace =
      w0.trace ++ scenarioOps bs ∧
    receiveCalls (scenarioOps bs) = [(bs.length : Int)] ∧
    (onStopDetected P cb (atEvent hstop w)).rxBuffer.data = [] := by
  subst hdata
  have hst := onStopDetected_slave P cb (atEvent hstop w) f hf hslave
  refine ⟨⟨{ atEvent hstop w with
      sercom := afterAck P (atEvent hstop w).sercom,
      trace := (atEvent hstop w).trace ++ [Op.prepareAckBitWIRE,
        Op.prepareCommandBitsWire (WireCommand.code 0x03)] }, rfl, ?_⟩, ?_, ?_, ?_⟩
  · rw [hst]
    rfl
  · rw [hst]
    show w.trace ++ _ = _
    rw [htrace]
    simp [atEvent, scenarioOps]
  · simp [scenarioOps, receiveCalls_append, receiveCalls_receiveOps, receiveCalls]
  · rw [hst]
    rfl


theorem deliveredBytes_length (P : SERCOM σ) (hs : List σ) :
    (deliveredBytes P hs).length = hs.length := by
  simp [deliveredBytes]

/-- Claim C10. In slave mode, starting from an empty receive buffer of capacity at least `n`,
with a registered on-receive callback `f`: an address-match event in write direction without
restart, then `n` data-ready events delivering `n` bytes, then a stop event. On the three
discrete handlers and on the polled dispatcher alike, the buffer holds the `n` bytes in order
before the stop event, the callback is invoked exactly once, with argument `n`, at the stop
event on a state whose receive buffer still holds those bytes, and the receive buffer is empty
once the callback has returned. -/
theorem slave_receive_scenario (P : SERCOM σ) (cb : Callbacks σ)
    (f : Int → TwoWire σ → TwoWire σ) (ha : σ) (hs : List σ) (hstop : σ) (w : TwoWire σ)
    (hf : cb.onReceiveCallback = some f)
    (hempty : w.rxBuffer.data = []) (hcap : hs.length ≤ w.rxBuffer.capacity) :
    (addressMatchWrite P ha = true → (∀ h ∈ hs, dataReadyReceive P h = true) →
      P.isSlaveWIRE hstop = true →
        (receiveUntilStop P cb ha hs w).rxBuffer.data = deliveredBytes P hs ∧
        (∃ wcb : TwoWire σ, wcb.rxBuffer.data = deliveredBytes P hs ∧
          receiveScenario P cb ha hs hstop w =
            { f (hs.length : Int) wcb with
              rxBuffer := (f (hs.length : Int) wcb).rxBuffer.clear,
              trace := (receiveScenario P cb ha hs hstop w).trace }) ∧
        (receiveScenario P cb ha hs hstop w).trace
          = w.trace ++ scenarioOps (deliveredBytes P hs) ∧
        receiveCalls (scenarioOps (deliveredBytes P hs)) = [(hs.length : Int)] ∧
        (receiveScenario P cb ha hs hstop w).rxBuffer.data = []) ∧
    (serviceAddressMatchWrite P ha = true → (∀ h ∈ hs, serviceDataReadyReceive P h = true) →
      serviceStop P hstop = true →
        (serviceUntilStop P cb ha hs w).rxBuffer.data = deliveredBytes P hs ∧
        (∃ wcb : TwoWire σ, wcb.rxBuffer.data = deliveredBytes P hs ∧
          serviceScenario P cb ha hs hstop w =
            { f (hs.length : Int) wcb with
              rxBuffer := (f (hs.length : Int) wcb).rxBuffer.clear,
              trace := (serviceScenario P cb ha hs hstop w).trace }) ∧
        (serviceScenario P cb ha hs hstop w).trace
          = w.trace ++ scenarioOps (deliveredBytes P hs) ∧
        receiveCalls (scenarioOps (deliveredBytes P hs)) = [(hs.length : Int)] ∧
        (serviceScenario P cb ha hs hstop w).rxBuffer.data = []) := by
  constructor
  · intro hA hD hS
    obtain ⟨h1, h2⟩ := receiveUntilStop_spec P cb ha hs w hempty hcap hA hD
    have h := stop_after_receive P cb f hf hstop hS w
      (receiveUntilStop P cb ha hs w) (deliveredBytes P hs) h1 h2
    rw [deliveredBytes_length] at h
    unfold receiveScenario
    exact ⟨h1, h⟩
  · intro hA hD hS
    obtain ⟨h1, h2⟩ := serviceUntilStop_spec P cb ha hs w hempty hcap hA hD
    have hsl : P.isSlaveWIRE hstop = true := by
      simp only [serviceStop, Bool.and_eq_true] at hS
      exact hS.1
    have h := stop_after_receive P cb f hf hstop hsl w
      (serviceUntilStop P cb ha hs w) (deliveredBytes P hs) h1 h2
    rw [deliveredBytes_length] at h
    have he : serviceScenario P cb ha hs hstop w
        = onStopDetected P cb (atEvent hstop (serviceUntilStop P cb ha hs w)) :=
      onService_stop P cb _ hS
    rw [he]
    exact ⟨h1, h⟩

/-- Claim C10, witness: the bytes 0xAA, 0xBB give one callback invocation with argument 2. -/
theorem slave_receive_scenario_witness :
    (receiveScenario demoSercom demoCallbacks demoAddressMatchHw
      [demoDataReadyHw 0xAA, demoDataReadyHw 0xBB] demoStopHw (demoWire 64 demoMasterHw)).trace
      = (demoWire 64 demoMasterHw).trace ++ scenarioOps [0xAA, 0xBB] ∧
    receiveCalls (scenarioOps [0xAA, 0xBB]) = [2] ∧
    (serviceScenario demoSercom demoCallbacks demoAddressMatchHw
      [demoDataReadyHw 0xAA, demoDataReadyHw 0xBB] demoStopHw (demoWire 64 demoMasterHw)).trace
      = (demoWire 64 demoMasterHw).trace ++ scenarioOps [0xAA, 0xBB] ∧
    (serviceScenario demoSercom demoCallbacks demoAddressMatchHw
      [demoDataReadyHw 0xAA, demoDataReadyHw 0xBB] demoStopHw
      (demoWire 64 demoMasterHw)).rxBuffer.data = [] :=
  have h := slave_receive_scenario demoSercom demoCallbacks (fun _ w => (TwoWire.read w).2)
    demoAddressMatchHw [demoDataReadyHw 0xAA, demoDataReadyHw 0xBB] demoStopHw
    (demoWire 64 demoMasterHw) rfl rfl (by decide)
  ⟨(h.1 (by decide) (by decide) (by decide)).2.2.1,
   (h.1 (by decide) (by decide) (by decide)).2.2.2.1,
   (h.2 (by decide) (by decide) (by decide)).2.2.1,
   (h.2 (by decide) (by decide) (by decide)).2.2.2.2⟩

/-- Claim C12. In slave mode, on a data-ready event in receive direction (not a master-read):
if the receive buffer is full the driver asserts a negative-acknowledge (then the command),
reads no byte from the peripheral and leaves the receive buffer unchanged; otherwise it reads
the incoming byte, appends it at the end of the receive buffer and asserts acknowledge. The
polled dispatcher `onService` does the same when only the data-ready condition is pending. -/
theorem dataReady_receive (P : SERCOM σ) (cb : Callbacks σ) (w : TwoWire σ)
    (hslave : P.isSlaveWIRE w.sercom = true)
    (hdir : P.isMasterReadOperationWIRE w.sercom = false) :
    (w.rxBuffer.isFull = true →
      onDataReady P w =
        { w with sercom := P.prepareCommandBitsWire (WireCommand.code 0x03)
                   (P.prepareNackBitWIRE w.sercom),
                 trace := w.trace ++ [Op.prepareNackBitWIRE,
                   Op.prepareCommandBitsWire (WireCommand.code 0x03)] }) ∧
    (w.rxBuffer.isFull = false →
      onDataReady P w =
        { w with sercom := afterAck P (P.readDataWIRE w.sercom).2,
                 rxBuffer := { capacity := w.rxBuffer.capacity,
                               data := w.rxBuffer.data ++ [(P.readDataWIRE w.sercom).1] },
                 trace := w.trace ++ [Op.readDataWIRE (P.readDataWIRE w.sercom).1,
                   Op.prepareAckBitWIRE, Op.prepareCommandBitsWire (WireCommand.code 0x03)] }) ∧
    (P.isStopDetectedWIRE w.sercom = false → P.isAddressMatch w.sercom = false →
      P.isDataReadyWIRE w.sercom = true → onService P cb w = onDataReady P w) := by
  refine ⟨?_, ?_, ?_⟩
  · intro hfull
    simp [onDataReady, hslave, hdir, hfull, prepareNackBitWIRE, prepareCommandBitsWire]
  · intro hfull
    simp [onDataReady, hslave, hdir, hfull, readDataWIRE, prepareAckBitWIRE,
      prepareCommandBitsWire, RingBuffer.store_char, afterAck]
  · intro h1 h2 h3
    simp [onService, onDataReady, hslave, hdir, h1, h2, h3]

/-- Claim C12, witness: a further byte is ready while the receive buffer of capacity 2 holds
2 bytes. -/
theorem dataReady_receive_witness :
    demoFullRxWire.rxBuffer.isFull = true ∧
    (onDataReady demoSercom demoFullRxWire).trace
      = [Op.prepareNackBitWIRE, Op.prepareCommandBitsWire (WireCommand.code 0x03)] ∧
    (onDataReady demoSercom demoFullRxWire).rxBuffer = demoFullRxWire.rxBuffer :=
  have h := (dataReady_receive demoSercom demoCallbacks demoFullRxWire rfl rfl).1 (by decide)
  ⟨by decide, by rw [h]; rfl, by rw [h]⟩

/-- Claim C20. When the peripheral is not in slave mode, every slave event handler
(`onService`, `onStopDetected`, `onAddressMatch`, `onDataReady`) is a no-op: the whole state is
unchanged, so both buffers and the in-progress flag are unchanged, no callback is invoked and
no operation is issued to the peripheral (the trace is unchanged). -/
theorem slave_handlers_not_slave (P : SERCOM σ) (cb : Callbacks σ) (w : TwoWire σ)
    (h : P.isSlaveWIRE w.sercom = false) :
    onService P cb w = w ∧ onStopDetected P cb w = w ∧ onAddressMatch P cb w = w ∧
    onDataReady P w = w := by
  refine ⟨?_, ?_, ?_, ?_⟩
  · simp [onService, h]
  · simp [onStopDetected, h]
  · simp [onAddressMatch, h]
  · simp [onDataReady, h]

/-- Claim C20, witness: the handlers on a driver in master mode. -/
theorem slave_handlers_not_slave_witness :
    demoSercom.isSlaveWIRE (demoWire 64 demoMasterHw).sercom = false ∧
    onService demoSercom demoCallbacks (demoWire 64 demoMasterHw) = demoWire 64 demoMasterHw ∧
    onStopDetected demoSercom demoCallbacks (demoWire 64 demoMasterHw)
      = demoWire 64 demoMasterHw ∧
    onAddressMatch demoSercom demoCallbacks (demoWire 64 demoMasterHw)
      = demoWire 64 demoMasterHw ∧
    onDataReady demoSercom (demoWire 64 demoMasterHw) = demoWire 64 demoMasterHw :=
  ⟨rfl, slave_handlers_not_slave demoSercom demoCallbacks (demoWire 64 demoMasterHw) rfl⟩

theorem onAddressMatch_read (P : SERCOM σ) (cb : Callbacks σ) (w : TwoWire σ)
    (f : TwoWire σ → TwoWire σ) (hf : cb.onRequestCallback = some f)
    (h : addressMatchRead P w.sercom = true) :
    onAddressMatch P cb w =
      { f (requestEntry P w.sercom w) with
        trace := w.trace ++ [Op.prepareAckBitWIRE,
          Op.prepareCommandBitsWire (WireCommand.code 0x03), Op.onRequestCallback] } := by
  simp only [addressMatchRead, Bool.and_eq_true, afterAck] at h
  simp [onAddressMatch, h.1, h.2, callOnRequest, hf, prepareAckBitWIRE,
    prepareCommandBitsWire, requestEntry, afterAck]

theorem onDataReady_transmit (P : SERCOM σ) (w : TwoWire σ)
    (h : dataReadyTransmit P w.sercom = true) :
    onDataReady P w =
      { w with sercom := (P.sendDataSlaveWIRE (w.txBuffer.data.headD 0xff) w.sercom).2,
               txBuffer := { capacity := w.txBuffer.capacity, data := w.txBuffer.data.tail },
               transmissionBegun :=
                 (P.sendDataSlaveWIRE (w.txBuffer.data.headD 0xff) w.sercom).1,
               trace := w.trace
                 ++ [Op.sendDataSlaveWIRE (w.txBuffer.data.headD 0xff)] } := by
  simp only [dataReadyTransmit, Bool.and_eq_true] at h
  rcases w with ⟨sc, rx, ⟨cap, d⟩, addr, begun, tr⟩
  cases d with
  | nil =>
    simp [onDataReady, h.1, h.2, RingBuffer.available, sendDataSlaveWIRE]
  | cons c rest =>
    have hne : ((rest.length : Int) + 1 = 0) = False := by
      apply eq_false
      omega
    simp [onDataReady, h.1, h.2, RingBuffer.available, RingBuffer.read_char,
      sendDataSlaveWIRE, toUInt8_val, hne]

theorem dataReadyEvents_transmit (P : SERCOM σ) :
    ∀ (hs : List σ) (w : TwoWire σ), (∀ h ∈ hs, dataReadyTransmit P h = true) →
      (dataReadyEvents P hs w).trace
        = w.trace ++ (slaveSends w.txBuffer.data hs.length).map Op.sendDataSlaveWIRE ∧
      (dataReadyEvents P hs w).txBuffer.data = w.txBuffer.data.drop hs.length := by
  intro hs
  induction hs with
  | nil => intro w _; simp [dataReadyEvents, slaveSends]
  | cons h hs ih =>
    intro w hall
    have hstep : dataReadyEvents P (h :: hs) w
        = dataReadyEvents P hs (onDataReady P (atEvent h w)) := rfl
    have hh : dataReadyTransmit P (atEvent h w).sercom = true := hall h (by simp)
    rw [hstep, onDataReady_transmit P _ hh]
    obtain ⟨h1, h2⟩ := ih
      { atEvent h w with
        sercom := (P.sendDataSlaveWIRE ((atEvent h w).txBuffer.data.headD 0xff)
          (atEvent h w).sercom).2,
        txBuffer := { capacity := (atEvent h w).txBuffer.capacity,
                      data := (atEvent h w).txBuffer.data.tail },
        transmissionBegun := (P.sendDataSlaveWIRE ((atEvent h w).txBuffer.data.headD 0xff)
          (atEvent h w).sercom).1,
        trace := (atEvent h w).trace
          ++ [Op.sendDataSlaveWIRE ((atEvent h w).txBuffer.data.headD 0xff)] }
      (fun x hx => hall x (by simp [hx]))
    rw [h1, h2]
    cases hd : w.txBuffer.data <;> simp [atEvent, slaveSends, hd]

/-- Claim C11. In slave mode, for every prior driver state, an address-match event in read
direction clears the transmit buffer, sets the in-progress flag and then invokes the on-request
callback `f` within that event (on the state `requestEntry`), before any data-ready event; a
callback that writes the bytes `bs` (no more than the capacity) leaves exactly `bs` in the
transmit buffer; the following master-read data-ready events send the buffered bytes, one per
event in the order written, and `0xFF` whenever the transmit buffer is empty, so if the
callback writes no bytes every event, the first included, sends `0xFF`. -/
theorem slave_request_scenario (P : SERCOM σ) (cb : Callbacks σ)
    (f : TwoWire σ → TwoWire σ) (ha : σ) (hs : List σ) (w : TwoWire σ)
    (hf : cb.onRequestCallback = some f)
    (hA : addressMatchRead P ha = true)
    (hD : ∀ h ∈ hs, dataReadyTransmit P h = true) :
    (requestEntry P ha w).txBuffer.data = [] ∧
    (requestEntry P ha w).transmissionBegun = true ∧
    onAddressMatch P cb (atEvent ha w) =
      { f (requestEntry P ha w) with
        trace := w.trace ++ [Op.prepareAckBitWIRE,
          Op.prepareCommandBitsWire (WireCommand.code 0x03), Op.onRequestCallback] } ∧
    (∀ bs : List Byte, bs.length ≤ w.txBuffer.capacity →
      (writeAll bs (requestEntry P ha w)).txBuffer.data = bs) ∧
    (dataReadyEvents P hs (onAddressMatch P cb (atEvent ha w))).trace
      = w.trace ++ [Op.prepareAckBitWIRE, Op.prepareCommandBitsWire (WireCommand.code 0x03),
          Op.onRequestCallback]
        ++ (slaveSends (f (requestEntry P ha w)).txBuffer.data hs.length).map
            Op.sendDataSlaveWIRE ∧
    ((f (requestEntry P ha w)).txBuffer.data = [] →
      slaveSends (f (requestEntry P ha w)).txBuffer.data hs.length
        = List.replicate hs.length 0xff) := by
  have hm := onAddressMatch_read P cb (atEvent ha w) f hf hA
  have he : requestEntry P (atEvent ha w).sercom (atEvent ha w) = requestEntry P ha w := rfl
  rw [he] at hm
  refine ⟨rfl, rfl, hm, ?_, ?_, ?_⟩
  · intro bs hlen
    rw [writeAll_spec bs (requestEntry P ha w) rfl
      (by simpa [requestEntry, RingBuffer.clear] using hlen)]
    simp [requestEntry, RingBuffer.clear]
  · rw [(dataReadyEvents_transmit P hs _ hD).1, hm]
    rfl
  · intro he
    rw [he]
    generalize hs.length = n
    induction n with
    | zero => rfl
    | succ n ih => simp [slaveSends, ih, List.replicate_succ]

/-- Claim C11, witness: the callback writes 0x10, 0x20 and three data-ready events follow. -/
theorem slave_request_scenario_witness :
    (dataReadyEvents demoSercom [demoTransmitHw, demoTransmitHw, demoTransmitHw]
      (onAddressMatch demoSercom demoRequestCallbacks
        (atEvent demoAddressMatchReadHw (demoWire 64 demoMasterHw)))).trace
      = [Op.prepareAckBitWIRE, Op.prepareCommandBitsWire (WireCommand.code 0x03),
         Op.onRequestCallback, Op.sendDataSlaveWIRE 0x10, Op.sendDataSlaveWIRE 0x20,
         Op.sendDataSlaveWIRE 0xff] :=
  have h := slave_request_scenario demoSercom demoRequestCallbacks (writeAll [0x10, 0x20])
    demoAddressMatchReadHw [demoTransmitHw, demoTransmitHw, demoTransmitHw]
    (demoWire 64 demoMasterHw) rfl (by decide) (by decide)
  (h.2.2.2.2.1.trans (by rw [h.2.2.2.1 [0x10, 0x20] (by decide)]; decide))

theorem onAddressMatch_restart (P : SERCOM σ) (cb : Callbacks σ) (w : TwoWire σ)
    (h : addressMatchRestart P w.sercom = true) :
    onAddressMatch P cb w = onStopDetected P cb w := by
  simp only [addressMatchRestart, Bool.and_eq_true, Bool.not_eq_true', afterAck] at h
  obtain ⟨⟨h1, h2⟩, h3⟩ := h
  simp [onAddressMatch, onStopDetected, h1, h2, h3, prepareAckBitWIRE, prepareCommandBitsWire]

theorem onService_restart (P : SERCOM σ) (cb : Callbacks σ) (w : TwoWire σ)
    (h : serviceAddressMatchRestart P w.sercom = true) :
    onService P cb w = onStopDetected P cb w := by
  simp only [serviceAddressMatchRestart, Bool.and_eq_true, Bool.not_eq_true'] at h
  obtain ⟨⟨⟨h1, h2⟩, h3⟩, h4⟩ := h
  simp [onService, onStopDetected, h1, h2, h3, h4]

/-- Claim C17. In slave mode, with a registered on-receive callback `f`, an address-match
event that is a master-write arriving via a repeated start is a receive-complete boundary:
after the acknowledge and command the callback is invoked exactly once, with the number of
bytes then in the receive buffer, on a state whose receive buffer still holds them (the
resulting state is that of `f` applied to `receiveEntry`), and the receive buffer is emptied
afterwards; a master-write address match without restart invokes no callback and leaves both
buffers and the in-progress flag unchanged. Both hold for `onAddressMatch` and `onService`. -/
theorem address_match_write_boundary (P : SERCOM σ) (cb : Callbacks σ)
    (f : Int → TwoWire σ → TwoWire σ) (w : TwoWire σ)
    (hf : cb.onReceiveCallback = some f) :
    (addressMatchRestart P w.sercom = true →
      onAddressMatch P cb w =
        { sercom := (f (w.rxBuffer.data.length : Int) (receiveEntry P w)).sercom,
          rxBuffer := (f (w.rxBuffer.data.length : Int) (receiveEntry P w)).rxBuffer.clear,
          txBuffer := (f (w.rxBuffer.data.length : Int) (receiveEntry P w)).txBuffer,
          txAddress := (f (w.rxBuffer.data.length : Int) (receiveEntry P w)).txAddress,
          transmissionBegun :=
            (f (w.rxBuffer.data.length : Int) (receiveEntry P w)).transmissionBegun,
          trace := w.trace ++ [Op.prepareAckBitWIRE,
            Op.prepareCommandBitsWire (WireCommand.code 0x03),
            Op.onReceiveCallback (w.rxBuffer.data.length : Int)] } ∧
      (onAddressMatch P cb w).trace = w.trace ++ [Op.prepareAckBitWIRE,
        Op.prepareCommandBitsWire (WireCommand.code 0x03),
        Op.onReceiveCallback (w.rxBuffer.data.length : Int)] ∧
      (onAddressMatch P cb w).rxBuffer.data = []) ∧
    (serviceAddressMatchRestart P w.sercom = true →
      onService P cb w =
        { sercom := (f (w.rxBuffer.data.length : Int) (receiveEntry P w)).sercom,
          rxBuffer := (f (w.rxBuffer.data.length : Int) (receiveEntry P w)).rxBuffer.clear,
          txBuffer := (f (w.rxBuffer.data.length : Int) (receiveEntry P w)).txBuffer,
          txAddress := (f (w.rxBuffer.data.length : Int) (receiveEntry P w)).txAddress,
          transmissionBegun :=
            (f (w.rxBuffer.data.length : Int) (receiveEntry P w)).transmissionBegun,
          trace := w.trace ++ [Op.prepareAckBitWIRE,
            Op.prepareCommandBitsWire (WireCommand.code 0x03),
            Op.onReceiveCallback (w.rxBuffer.data.length : Int)] } ∧
      (onService P cb w).trace = w.trace ++ [Op.prepareAckBitWIRE,
        Op.prepareCommandBitsWire (WireCommand.code 0x03),
        Op.onReceiveCallback (w.rxBuffer.data.length : Int)] ∧
      (onService P cb w).rxBuffer.data = []) ∧
    (receiveEntry P w).rxBuffer = w.rxBuffer ∧
    (receiveEntry P w).txBuffer = w.txBuffer ∧
    (receiveEntry P w).transmissionBegun = w.transmissionBegun ∧
    receiveCalls [Op.prepareAckBitWIRE, Op.prepareCommandBitsWire (WireCommand.code 0x03),
      Op.onReceiveCallback (w.rxBuffer.data.length : Int)] = [(w.rxBuffer.data.length : Int)] ∧
    (addressMatchWrite P w.sercom = true →
      onAddressMatch P cb w =
        { w with sercom := afterAck P w.sercom,
                 trace := w.trace ++ [Op.prepareAckBitWIRE,
                   Op.prepareCommandBitsWire (WireCommand.code 0x03)] }) ∧
    (serviceAddressMatchWrite P w.sercom = true →
      onService P cb w =
        { w with sercom := afterAck P w.sercom,
                 trace := w.trace ++ [Op.prepareAckBitWIRE,
                   Op.prepareCommandBitsWire (WireCommand.code 0x03)] }) ∧
    receiveCalls [Op.prepareAckBitWIRE, Op.prepareCommandBitsWire (WireCommand.code 0x03)]
      = [] := by
  refine ⟨?_, ?_, rfl, rfl, rfl, rfl, ?_, ?_, rfl⟩
  · intro h
    have hs : P.isSlaveWIRE w.sercom = true := by
      simp only [addressMatchRestart, Bool.and_eq_true] at h
      exact h.1.1
    rw [onAddressMatch_restart P cb w h, onStopDetected_slave P cb w f hf hs]
    exact ⟨rfl, rfl, rfl⟩
  · intro h
    have hs : P.isSlaveWIRE w.sercom = true := by
      simp only [serviceAddressMatchRestart, Bool.and_eq_true] at h
      exact h.1.1.1
    rw [onService_restart P cb w h, onStopDetected_slave P cb w f hf hs]
    exact ⟨rfl, rfl, rfl⟩
  · exact onAddressMatch_write P cb w
  · exact onService_addressMatch_write P cb w

/-- Claim C17, witness: a restart address match while one byte is buffered, with a callback
that leaves a mark: it saves its argument as the target address and sets the in-progress
flag. Afterwards the address is 1, the number of buffered bytes, and the flag is set. -/
theorem address_match_write_boundary_witness :
    addressMatchRestart demoSercom demoReceivingWire.sercom = true ∧
    serviceAddressMatchRestart demoSercom demoReceivingWire.sercom = true ∧
    demoReceivingWire.txAddress = 0 ∧ demoReceivingWire.transmissionBegun = false ∧
    (onAddressMatch demoSercom demoMarkCallbacks demoReceivingWire).txAddress = 1 ∧
    (onAddressMatch demoSercom demoMarkCallbacks demoReceivingWire).transmissionBegun = true ∧
    (onAddressMatch demoSercom demoMarkCallbacks demoReceivingWire).rxBuffer.data = [] ∧
    (onAddressMatch demoSercom demoMarkCallbacks demoReceivingWire).trace
      = [Op.prepareAckBitWIRE, Op.prepareCommandBitsWire (WireCommand.code 0x03),
         Op.onReceiveCallback 1] ∧
    (onService demoSercom demoMarkCallbacks demoReceivingWire).txAddress = 1 ∧
    (onService demoSercom demoMarkCallbacks demoReceivingWire).transmissionBegun = true :=
  have h := address_match_write_boundary demoSercom demoMarkCallbacks
    (fun n w => TwoWire.beginTransmission (toUInt8 n) w) demoReceivingWire rfl
  have h1 := (h.1 (by decide)).1
  have h2 := (h.2.1 (by decide)).1
  ⟨by decide, by decide, rfl, rfl, by rw [h1]; decide, by rw [h1]; rfl, by rw [h1]; rfl,
   by rw [h1]; rfl, by rw [h2]; decide, by rw [h2]; rfl⟩

/-- Claim C18. For every quantity > 0 with an acknowledged address phase the value returned
by `requestFrom` is `quantity mod 2^8`; so a request for 256 bytes, or any multiple of 256,
returns 0, the value a failed address phase returns. -/
theorem requestFrom_return_mod (P : SERCOM σ) (address : Byte) (quantity : Nat)
    (stopBit : Bool) (w : TwoWire σ) (hq : 0 < quantity)
    (hack : (P.startTransmissionWIRE address SercomWireReadWriteFlag.WIRE_READ_FLAG
      w.sercom).1 = true) :
    (requestFrom P address quantity stopBit w).1 = quantity % 2 ^ 8 ∧
    (quantity % 256 = 0 → (requestFrom P address quantity stopBit w).1 = 0) ∧
    (∀ v : TwoWire σ,
      (P.startTransmissionWIRE address SercomWireReadWriteFlag.WIRE_READ_FLAG
        v.sercom).1 = false →
      (requestFrom P address quantity stopBit v).1 = 0) := by
  obtain ⟨_, _, _, _, _, h5, _⟩ := requestFrom_spec P address quantity stopBit w (by omega) hack
  rw [h5]
  refine ⟨rfl, fun h => h, ?_⟩
  intro v hv
  rw [requestFrom_nack P address quantity stopBit v (by omega) hv]

/-- Claim C18, witness: 256 bytes requested, address phase acknowledged. -/
theorem requestFrom_return_mod_witness :
    (demoSercom.startTransmissionWIRE 0x50 SercomWireReadWriteFlag.WIRE_READ_FLAG
      (demoWire 256 demoMasterHw).sercom).1 = true ∧
    (requestFrom demoSercom 0x50 256 true (demoWire 256 demoMasterHw)).1 = 0 :=
  ⟨rfl, (requestFrom_return_mod demoSercom 0x50 256 true (demoWire 256 demoMasterHw)
    (by decide) rfl).2.1 (by decide)⟩

theorem requestFromLoop_trace (P : SERCOM σ) (quantity : Nat) :
    ∀ (n byteRead : Nat) (w : TwoWire σ), quantity - byteRead = n →
      ∃ rest : List Byte, rest.length = n ∧
        (requestFromLoop P quantity byteRead w).2.trace = w.trace ++ continueOps rest := by
  intro n
  induction n with
  | zero =>
    intro i w hn
    rw [requestFromLoop_done P quantity i w (by omega)]
    exact ⟨[], rfl, by simp [continueOps]⟩
  | succ n ih =>
    intro i w hn
    rw [requestFromLoop_succ P quantity i w (by omega)]
    generalize P.readDataWIRE (P.prepareCommandBitsWire
      WireCommand.WIRE_MASTER_ACT_READ (P.prepareAckBitWIRE w.sercom)) = rd
    obtain ⟨rest, h1, h2⟩ := ih (i + 1)
      { sercom := rd.2, rxBuffer := w.rxBuffer.store_char rd.1, txBuffer := w.txBuffer,
        txAddress := w.txAddress, transmissionBegun := w.transmissionBegun,
        trace := w.trace ++ [Op.prepareAckBitWIRE,
          Op.prepareCommandBitsWire WireCommand.WIRE_MASTER_ACT_READ, Op.readDataWIRE rd.1] }
      (by omega)
    refine ⟨rd.1 :: rest, by simp [h1], ?_⟩
    rw [h2]
    simp [continueOps]

/-- Claim C16. For every quantity `n > 0` with an acknowledged address phase, the operations
issued by `requestFrom(address, n, stopBit)` are exactly: start-read at `address`, one data
read, then `n - 1` repetitions of (prepare ACK, continue-reading command, data read), then
prepare NACK, then a stop command if and only if `stopBit` (the list `requestOps`). -/
theorem requestFrom_operations (P : SERCOM σ) (address : Byte) (quantity : Nat)
    (stopBit : Bool) (w : TwoWire σ) (hq : 0 < quantity)
    (hack : (P.startTransmissionWIRE address SercomWireReadWriteFlag.WIRE_READ_FLAG
      w.sercom).1 = true) :
    ∃ (b0 : Byte) (rest : List Byte), rest.length = quantity - 1 ∧
      (requestFrom P address quantity stopBit w).2.trace
        = w.trace ++ requestOps address b0 rest stopBit := by
  simp only [requestFrom, if_neg (Nat.pos_iff_ne_zero.mp hq), startTransmissionWIRE, hack,
    if_true, readDataWIRE]
  generalize (P.startTransmissionWIRE address SercomWireReadWriteFlag.WIRE_READ_FLAG
    w.sercom).2 = h1
  generalize P.readDataWIRE h1 = rd
  obtain ⟨rest, hl, ht⟩ := requestFromLoop_trace P quantity (quantity - 1) 1
    { sercom := rd.2, rxBuffer := w.rxBuffer.clear.store_char rd.1, txBuffer := w.txBuffer,
      txAddress := w.txAddress, transmissionBegun := w.transmissionBegun,
      trace := w.trace ++ [Op.startTransmissionWIRE address
        SercomWireReadWriteFlag.WIRE_READ_FLAG] ++ [Op.readDataWIRE rd.1] }
    rfl
  dsimp only at ht
  generalize requestFromLoop P quantity 1 _ = l at ht ⊢
  refine ⟨rd.1, rest, hl, ?_⟩
  cases stopBit
  · simp [prepareNackBitWIRE, ht, requestOps]
  · simp [prepareNackBitWIRE, prepareCommandBitsWire, ht, requestOps]

/-- Claim C16, witness: three bytes requested with a stop. -/
theorem requestFrom_operations_witness :
    ∃ (b0 : Byte) (rest : List Byte), rest.length = 3 - 1 ∧
      (requestFrom demoSercom 0x50 3 true (demoWire 64 demoMasterHw)).2.trace
        = (demoWire 64 demoMasterHw).trace ++ requestOps 0x50 b0 rest true :=
  requestFrom_operations demoSercom 0x50 3 true (demoWire 64 demoMasterHw) (by decide) rfl

theorem firstRejected_of_not_allAcked (P : SERCOM σ) :
    ∀ (d : List Byte) (h : σ), allAcked P d h = false →
      ∃ j, j < d.length ∧ firstRejected P d h = some j := by
  intro d
  induction d with
  | nil => intro h ha; simp [allAcked] at ha
  | cons c rest ih =>
    intro h ha
    cases hs : (P.sendDataMasterWIRE c h).1
    · exact ⟨0, by simp, by simp [firstRejected, hs]⟩
    · simp only [allAcked, hs, Bool.true_and] at ha
      obtain ⟨j, hj, hf⟩ := ih _ ha
      exact ⟨j + 1, by simpa using hj, by simp [firstRejected, hs, hf]⟩

theorem endTransmissionLoop_rejected (P : SERCOM σ) :
    ∀ (d : List Byte) (w : TwoWire σ) (j : Nat), w.txBuffer.data = d →
      firstRejected P d w.sercom = some j →
      (endTransmissionLoop P w).2.trace = w.trace
        ++ (d.take (j + 1)).map Op.sendDataMasterWIRE
        ++ [Op.prepareCommandBitsWire WireCommand.WIRE_MASTER_ACT_STOP] ∧
      (endTransmissionLoop P w).2.txBuffer.data = d.drop (j + 1) := by
  intro d
  induction d with
  | nil => intro w j _ hf; simp [firstRejected] at hf
  | cons c rest ih =>
    intro w j h hf
    rw [endTransmissionLoop_cons P w c rest h]
    cases hs : (P.sendDataMasterWIRE c w.sercom).1
    · simp only [firstRejected, hs, Bool.false_eq_true, if_false, Option.some.injEq] at hf
      subst hf
      simp
    · simp only [firstRejected, hs, if_true, Option.map_eq_some'] at hf
      obtain ⟨k, hk, hkj⟩ := hf
      subst hkj
      obtain ⟨h1, h2⟩ := ih
        { w with sercom := (P.sendDataMasterWIRE c w.sercom).2,
                 txBuffer := { capacity := w.txBuffer.capacity, data := rest },
                 trace := w.trace ++ [Op.sendDataMasterWIRE c] } k rfl hk
      simp only [if_true]
      rw [h1, h2]
      simp

theorem stopCount_append (xs ys : List Op) :
    stopCount (xs ++ ys) = stopCount xs + stopCount ys := by
  induction xs with
  | nil => simp [stopCount]
  | cons x xs ih =>
    cases x with
    | prepareCommandBitsWire cmd =>
      cases cmd
      · simp [stopCount, ih]
      · simp [stopCount, ih]
        omega
      · simp [stopCount, ih]
    | _ => simp [stopCount, ih]

theorem stopCount_sends (bs : List Byte) : stopCount (bs.map Op.sendDataMasterWIRE) = 0 := by
  induction bs with
  | nil => rfl
  | cons b bs ih => simp [stopCount, ih]

theorem masterSends_append (xs ys : List Op) :
    masterSends (xs ++ ys) = masterSends xs ++ masterSends ys := by
  induction xs with
  | nil => rfl
  | cons x xs ih => cases x <;> simp [masterSends, ih]

theorem masterSends_sends (bs : List Byte) : masterSends (bs.map Op.sendDataMasterWIRE) = bs := by
  induction bs with
  | nil => rfl
  | cons b bs ih => simp [masterSends, ih]

theorem endTransmission_address_nack (P : SERCOM σ) (stopBit : Bool) (w : TwoWire σ)
    (hnack : (P.startTransmissionWIRE w.txAddress SercomWireReadWriteFlag.WIRE_WRITE_FLAG
      w.sercom).1 = false) :
    endTransmission P stopBit w =
      (2, { w with
        sercom := P.prepareCommandBitsWire WireCommand.WIRE_MASTER_ACT_STOP
          (P.startTransmissionWIRE w.txAddress SercomWireReadWriteFlag.WIRE_WRITE_FLAG
            w.sercom).2,
        transmissionBegun := false,
        trace := w.trace ++ [Op.startTransmissionWIRE w.txAddress
          SercomWireReadWriteFlag.WIRE_WRITE_FLAG,
          Op.prepareCommandBitsWire WireCommand.WIRE_MASTER_ACT_STOP] }) := by
  simp [endTransmission, startTransmissionWIRE, hnack, prepareCommandBitsWire]

theorem endTransmission_data_nack (P : SERCOM σ) (stopBit : Bool) (w : TwoWire σ)
    (hack : (P.startTransmissionWIRE w.txAddress SercomWireReadWriteFlag.WIRE_WRITE_FLAG
      w.sercom).1 = true)
    (hrej : allAcked P w.txBuffer.data
      (P.startTransmissionWIRE w.txAddress SercomWireReadWriteFlag.WIRE_WRITE_FLAG
        w.sercom).2 = false) :
    (endTransmission P stopBit w).2 =
      (endTransmissionLoop P
        (startTransmissionWIRE P w.txAddress SercomWireReadWriteFlag.WIRE_WRITE_FLAG
          { w with transmissionBegun := false }).2).2 := by
  have hcode := endTransmissionLoop_code P w.txBuffer.data
    (startTransmissionWIRE P w.txAddress SercomWireReadWriteFlag.WIRE_WRITE_FLAG
      { w with transmissionBegun := false }).2 rfl
  have hd : (startTransmissionWIRE P w.txAddress SercomWireReadWriteFlag.WIRE_WRITE_FLAG
      { w with transmissionBegun := false }).2.sercom
      = (P.startTransmissionWIRE w.txAddress SercomWireReadWriteFlag.WIRE_WRITE_FLAG
        w.sercom).2 := rfl
  have hs2 : (startTransmissionWIRE P w.txAddress SercomWireReadWriteFlag.WIRE_WRITE_FLAG
      { w with transmissionBegun := false }).1 = true := hack
  rw [hd, hrej] at hcode
  simp only [endTransmission]
  rw [hs2]
  simp only [Bool.not_true, Bool.false_eq_true, if_false] at hcode ⊢
  generalize endTransmissionLoop P _ = l at hcode ⊢
  rw [hcode]

theorem firstRejected_lt (P : SERCOM σ) :
    ∀ (d : List Byte) (h : σ) (j : Nat), firstRejected P d h = some j → j < d.length := by
  intro d
  induction d with
  | nil => intro h j hf; simp [firstRejected] at hf
  | cons c rest ih =>
    intro h j hf
    cases hs : (P.sendDataMasterWIRE c h).1
    · simp only [firstRejected, hs, Bool.false_eq_true, if_false, Option.some.injEq] at hf
      subst hf
      simp
    · simp only [firstRejected, hs, if_true, Option.map_eq_some'] at hf
      obtain ⟨k, hk, hkj⟩ := hf
      subst hkj
      have := ih _ k hk
      simp only [List.length_cons]
      omega

theorem not_allAcked_of_firstRejected (P : SERCOM σ) :
    ∀ (d : List Byte) (h : σ) (j : Nat), firstRejected P d h = some j →
      allAcked P d h = false := by
  intro d
  induction d with
  | nil => intro h j hf; simp [firstRejected] at hf
  | cons c rest ih =>
    intro h j hf
    cases hs : (P.sendDataMasterWIRE c h).1
    · simp [allAcked, hs]
    · simp only [firstRejected, hs, if_true, Option.map_eq_some'] at hf
      obtain ⟨k, hk, _⟩ := hf
      simp only [allAcked, hs, Bool.true_and]
      exact ih _ k hk

/-- Claim C19. When `endTransmission` fails the transmit buffer is not discarded. If the
address phase is not acknowledged, `endTransmission` returns 2, the operations are the
write-start and one stop command, no data byte is sent and the transmit buffer is unchanged.
If the address phase is acknowledged and the byte at position `j` (from 0) is the first one
the remote rejects, `endTransmission` returns 3, exactly the first `j + 1` buffered bytes
were handed to the peripheral, they are removed, the remaining bytes stay in the transmit
buffer in order, and one stop command follows. In both cases exactly one stop command is
issued, whatever `stopBit`; and these are the only ways to return 2 or 3. -/
theorem endTransmission_failure (P : SERCOM σ) (stopBit : Bool) (w : TwoWire σ) :
    ((P.startTransmissionWIRE w.txAddress SercomWireReadWriteFlag.WIRE_WRITE_FLAG
        w.sercom).1 = false →
      endTransmission P stopBit w =
        (2, { w with
          sercom := P.prepareCommandBitsWire WireCommand.WIRE_MASTER_ACT_STOP
            (P.startTransmissionWIRE w.txAddress SercomWireReadWriteFlag.WIRE_WRITE_FLAG
              w.sercom).2,
          transmissionBegun := false,
          trace := w.trace ++ [Op.startTransmissionWIRE w.txAddress
            SercomWireReadWriteFlag.WIRE_WRITE_FLAG,
            Op.prepareCommandBitsWire WireCommand.WIRE_MASTER_ACT_STOP] })) ∧
    stopCount [Op.startTransmissionWIRE w.txAddress SercomWireReadWriteFlag.WIRE_WRITE_FLAG,
      Op.prepareCommandBitsWire WireCommand.WIRE_MASTER_ACT_STOP] = 1 ∧
    masterSends [Op.startTransmissionWIRE w.txAddress SercomWireReadWriteFlag.WIRE_WRITE_FLAG,
      Op.prepareCommandBitsWire WireCommand.WIRE_MASTER_ACT_STOP] = [] ∧
    (∀ j : Nat,
      (P.startTransmissionWIRE w.txAddress SercomWireReadWriteFlag.WIRE_WRITE_FLAG
        w.sercom).1 = true →
      firstRejected P w.txBuffer.data
        (P.startTransmissionWIRE w.txAddress SercomWireReadWriteFlag.WIRE_WRITE_FLAG
          w.sercom).2 = some j →
      (endTransmission P stopBit w).1 = 3 ∧
      j < w.txBuffer.data.length ∧
      (endTransmission P stopBit w).2.trace = w.trace
        ++ ([Op.startTransmissionWIRE w.txAddress SercomWireReadWriteFlag.WIRE_WRITE_FLAG]
          ++ (w.txBuffer.data.take (j + 1)).map Op.sendDataMasterWIRE
          ++ [Op.prepareCommandBitsWire WireCommand.WIRE_MASTER_ACT_STOP]) ∧
      stopCount
        ([Op.startTransmissionWIRE w.txAddress SercomWireReadWriteFlag.WIRE_WRITE_FLAG]
          ++ (w.txBuffer.data.take (j + 1)).map Op.sendDataMasterWIRE
          ++ [Op.prepareCommandBitsWire WireCommand.WIRE_MASTER_ACT_STOP]) = 1 ∧
      masterSends
        ([Op.startTransmissionWIRE w.txAddress SercomWireReadWriteFlag.WIRE_WRITE_FLAG]
          ++ (w.txBuffer.data.take (j + 1)).map Op.sendDataMasterWIRE
          ++ [Op.prepareCommandBitsWire WireCommand.WIRE_MASTER_ACT_STOP])
        = w.txBuffer.data.take (j + 1) ∧
      (endTransmission P stopBit w).2.txBuffer
        = { capacity := w.txBuffer.capacity, data := w.txBuffer.data.drop (j + 1) } ∧
      (endTransmission P stopBit w).2.rxBuffer = w.rxBuffer) ∧
    ((endTransmission P stopBit w).1 = 2 ↔
      (P.startTransmissionWIRE w.txAddress SercomWireReadWriteFlag.WIRE_WRITE_FLAG
        w.sercom).1 = false) ∧
    ((endTransmission P stopBit w).1 = 3 ↔
      (P.startTransmissionWIRE w.txAddress SercomWireReadWriteFlag.WIRE_WRITE_FLAG
        w.sercom).1 = true ∧
      ∃ j : Nat, firstRejected P w.txBuffer.data
        (P.startTransmissionWIRE w.txAddress SercomWireReadWriteFlag.WIRE_WRITE_FLAG
          w.sercom).2 = some j) := by
  have hfst := endTransmission_fst P stopBit w
  refine ⟨endTransmission_address_nack P stopBit w, rfl, rfl, ?_, ?_, ?_⟩
  · intro j hack hf
    have hrej := not_allAcked_of_firstRejected P _ _ j hf
    have hlt := firstRejected_lt P _ _ j hf
    obtain ⟨t1, t2⟩ := endTransmissionLoop_rejected P w.txBuffer.data
      (startTransmissionWIRE P w.txAddress SercomWireReadWriteFlag.WIRE_WRITE_FLAG
        { w with transmissionBegun := false }).2 j rfl hf
    obtain ⟨_, f2, _, f4⟩ := endTransmissionLoop_frame P w.txBuffer.data
      (startTransmissionWIRE P w.txAddress SercomWireReadWriteFlag.WIRE_WRITE_FLAG
        { w with transmissionBegun := false }).2 rfl
    rw [← endTransmission_data_nack P stopBit w hack hrej] at t1 t2 f2 f4
    refine ⟨?_, hlt, ?_, ?_, ?_, ?_, f2⟩
    · rw [hfst, hack, hrej]
      rfl
    · rw [t1]
      simp [startTransmissionWIRE]
    · rw [stopCount_append, stopCount_append, stopCount_sends]
      rfl
    · rw [masterSends_append, masterSends_append, masterSends_sends]
      simp [masterSends]
    · have hc : (endTransmission P stopBit w).2.txBuffer.capacity = w.txBuffer.capacity := f4
      cases hb : (endTransmission P stopBit w).2.txBuffer with
      | mk cap d =>
        rw [hb] at hc t2
        simp only at hc t2
        rw [hc, t2]
  · rw [hfst]
    cases (P.startTransmissionWIRE w.txAddress SercomWireReadWriteFlag.WIRE_WRITE_FLAG
        w.sercom).1 <;>
      cases allAcked P w.txBuffer.data
        (P.startTransmissionWIRE w.txAddress SercomWireReadWriteFlag.WIRE_WRITE_FLAG
          w.sercom).2 <;> simp
  · constructor
    · intro h3
      rw [hfst] at h3
      cases hs : (P.startTransmissionWIRE w.txAddress SercomWireReadWriteFlag.WIRE_WRITE_FLAG
        w.sercom).1
      · rw [hs] at h3
        simp at h3
      · rw [hs] at h3
        simp only [if_true] at h3
        cases ha : allAcked P w.txBuffer.data
          (P.startTransmissionWIRE w.txAddress SercomWireReadWriteFlag.WIRE_WRITE_FLAG
            w.sercom).2
        · obtain ⟨j, _, hj⟩ := firstRejected_of_not_allAcked P _ _ ha
          exact ⟨rfl, j, hj⟩
        · rw [ha] at h3
          simp at h3
    · rintro ⟨hack, j, hj⟩
      rw [hfst, hack, not_allAcked_of_firstRejected P _ _ j hj]
      rfl

/-- Claim C19, witness: the remote rejects the byte 2, the second of the buffered bytes
1, 2, 3; and a remote that does not acknowledge its address while 1, 2 are buffered. -/
theorem endTransmission_failure_witness :
    firstRejected demoSercom demoRejectWire.txBuffer.data
      (demoSercom.startTransmissionWIRE demoRejectWire.txAddress
        SercomWireReadWriteFlag.WIRE_WRITE_FLAG demoRejectWire.sercom).2 = some 1 ∧
    (endTransmission demoSercom true demoRejectWire).1 = 3 ∧
    (endTransmission demoSercom true demoRejectWire).2.trace
      = [Op.startTransmissionWIRE 0x50 SercomWireReadWriteFlag.WIRE_WRITE_FLAG,
         Op.sendDataMasterWIRE 0x01, Op.sendDataMasterWIRE 0x02,
         Op.prepareCommandBitsWire WireCommand.WIRE_MASTER_ACT_STOP] ∧
    (endTransmission demoSercom true demoRejectWire).2.txBuffer.data = [0x03] ∧
    (endTransmission demoSercom false demoNackWire).1 = 2 ∧
    (endTransmission demoSercom false demoNackWire).2.trace
      = [Op.startTransmissionWIRE 0x50 SercomWireReadWriteFlag.WIRE_WRITE_FLAG,
         Op.prepareCommandBitsWire WireCommand.WIRE_MASTER_ACT_STOP] ∧
    (endTransmission demoSercom false demoNackWire).2.txBuffer.data = [0x01, 0x02] :=
  have h := (endTransmission_failure demoSercom true demoRejectWire).2.2.2.1 1 rfl (by decide)
  have g := (endTransmission_failure demoSercom false demoNackWire).1 rfl
  ⟨by decide, h.1, h.2.2.1, by rw [h.2.2.2.2.2.1]; rfl, by rw [g], by rw [g]; rfl,
   by rw [g]; rfl⟩

theorem onStopDetected_rx_empty (P : SERCOM σ) (cb : Callbacks σ) (w : TwoWire σ)
    (h : P.isSlaveWIRE w.sercom = true) : (onStopDetected P cb w).rxBuffer.data = [] := by
  simp only [onStopDetected, h, if_true]
  rfl

/-- Claim C13, amended. The receive buffer is cleared at the start of every new request:
after `requestFrom` with quantity > 0 it holds only bytes read during that request. In slave
mode it is cleared at the end of a receive cycle, after the on-receive callback: a stop event
and an address match in write direction arriving via a restart leave it empty, while an
address match in write direction without restart leaves the receive buffer as it was. -/
theorem rx_buffer_clearing (P : SERCOM σ) (cb : Callbacks σ) (address : Byte)
    (quantity : Nat) (stopBit : Bool) (w : TwoWire σ) (hq : 0 < quantity) :
    (∃ ops : List Op,
      (requestFrom P address quantity stopBit w).2.trace = w.trace ++ ops ∧
      (requestFrom P address quantity stopBit w).2.rxBuffer.data
        = (readsOf ops).take w.rxBuffer.capacity) ∧
    (addressMatchWrite P w.sercom = true → (onAddressMatch P cb w).rxBuffer = w.rxBuffer) ∧
    (serviceAddressMatchWrite P w.sercom = true → (onService P cb w).rxBuffer = w.rxBuffer) ∧
    (addressMatchRestart P w.sercom = true → (onAddressMatch P cb w).rxBuffer.data = []) ∧
    (serviceAddressMatchRestart P w.sercom = true → (onService P cb w).rxBuffer.data = []) ∧
    (P.isSlaveWIRE w.sercom = true → (onStopDetected P cb w).rxBuffer.data = []) := by
  refine ⟨?_, ?_, ?_, ?_, ?_, ?_⟩
  · cases hs : (P.startTransmissionWIRE address SercomWireReadWriteFlag.WIRE_READ_FLAG
        w.sercom).1
    · rw [requestFrom_nack P address quantity stopBit w (by omega) hs]
      exact ⟨[Op.startTransmissionWIRE address SercomWireReadWriteFlag.WIRE_READ_FLAG],
        rfl, by simp [readsOf, RingBuffer.clear]⟩
    · obtain ⟨ops, h1, _, _, h4, _⟩ :=
        requestFrom_spec P address quantity stopBit w (by omega) hs
      exact ⟨ops, h1, h4⟩
  · intro h
    rw [onAddressMatch_write P cb w h]
  · intro h
    rw [onService_addressMatch_write P cb w h]
  · intro h
    have hs : P.isSlaveWIRE w.sercom = true := by
      simp only [addressMatchRestart, Bool.and_eq_true] at h
      exact h.1.1
    rw [onAddressMatch_restart P cb w h]
    exact onStopDetected_rx_empty P cb w hs
  · intro h
    have hs : P.isSlaveWIRE w.sercom = true := by
      simp only [serviceAddressMatchRestart, Bool.and_eq_true] at h
      exact h.1.1.1
    rw [onService_restart P cb w h]
    exact onStopDetected_rx_empty P cb w hs
  · exact onStopDetected_rx_empty P cb w

/-- Claim C13, witness: a request for two bytes. -/
theorem rx_buffer_clearing_witness :
    ∃ ops : List Op,
      (requestFrom demoSercom 0x50 2 true (demoWire 64 demoMasterHw)).2.trace
        = (demoWire 64 demoMasterHw).trace ++ ops ∧
      (requestFrom demoSercom 0x50 2 true (demoWire 64 demoMasterHw)).2.rxBuffer.data
        = (readsOf ops).take (demoWire 64 demoMasterHw).rxBuffer.capacity :=
  (rx_buffer_clearing demoSercom demoCallbacks 0x50 2 true (demoWire 64 demoMasterHw)
    (by decide)).1

theorem requestFrom_demo_two :
    (requestFrom demoSercom 0x50 2 true (demoWire 64 demoMasterHw)).2.rxBuffer.data = [0, 1] := by
  simp [requestFrom, requestFromLoop, demoWire, demoSercom, demoMasterHw,
    startTransmissionWIRE, readDataWIRE, prepareAckBitWIRE, prepareCommandBitsWire,
    prepareNackBitWIRE, RingBuffer.store_char, RingBuffer.clear, RingBuffer.isFull]

/-- Claim C13, counterexample. A request leaves the bytes 0, 1 in the receive buffer; a slave
address-match event in write direction (no restart) follows: the two bytes from before the
event are still in the receive buffer, on `onAddressMatch` and on `onService` alike. -/
theorem rx_buffer_clearing_counterexample :
    addressMatchWrite demoSercom demoAddressMatchHw = true ∧
    serviceAddressMatchWrite demoSercom demoAddressMatchHw = true ∧
    (requestFrom demoSercom 0x50 2 true (demoWire 64 demoMasterHw)).2.rxBuffer.data = [0, 1] ∧
    (onAddressMatch demoSercom demoCallbacks (atEvent demoAddressMatchHw
      (requestFrom demoSercom 0x50 2 true (demoWire 64 demoMasterHw)).2)).rxBuffer.data
      = [0, 1] ∧
    (onService demoSercom demoCallbacks (atEvent demoAddressMatchHw
      (requestFrom demoSercom 0x50 2 true (demoWire 64 demoMasterHw)).2)).rxBuffer.data
      = [0, 1] := by
  refine ⟨by decide, by decide, requestFrom_demo_two, ?_, ?_⟩
  · rw [onAddressMatch_write demoSercom demoCallbacks _ (by decide)]
    exact requestFrom_demo_two
  · rw [onService_addressMatch_write demoSercom demoCallbacks _ (by decide)]
    exact requestFrom_demo_two

theorem RingBuffer.store_char_full (c : Byte) (r : RingBuffer)
    (h : r.capacity ≤ r.data.length) : r.store_char c = r := by
  simp [RingBuffer.store_char, RingBuffer.isFull, h]

theorem RingBuffer.store_char_length_le (c : Byte) (r : RingBuffer)
    (h : r.data.length ≤ r.capacity) : (r.store_char c).data.length ≤ r.capacity := by
  rw [RingBuffer.store_char_data c r h, List.length_take]
  omega

theorem RingBuffer.read_char_capacity (r : RingBuffer) :
    r.read_char.2.capacity = r.capacity := by
  unfold RingBuffer.read_char
  split <;> rfl

theorem RingBuffer.read_char_length_le (r : RingBuffer) :
    r.read_char.2.data.length ≤ r.data.length := by
  unfold RingBuffer.read_char
  split
  · exact Nat.le_refl _
  · next c rest h => simp [h]

theorem fits_of_buffers (capRx capTx : Nat) (w v : TwoWire σ)
    (hrx : v.rxBuffer = w.rxBuffer) (htx : v.txBuffer = w.txBuffer)
    (h : Fits capRx capTx w) : Fits capRx capTx v := by
  unfold Fits at *
  rw [hrx, htx]
  exact h

theorem write_fits (capRx capTx : Nat) (b : Byte) (w : TwoWire σ)
    (h : Fits capRx capTx w) : Fits capRx capTx (write b w).2 := by
  obtain ⟨h1, h2, h3, h4⟩ := h
  unfold write
  split
  · exact ⟨h1, h2, h3, h4⟩
  · refine ⟨h1, ?_, h3, ?_⟩
    · show (w.txBuffer.store_char b).capacity = capTx
      rw [RingBuffer.store_char_capacity, h2]
    · show (w.txBuffer.store_char b).data.length ≤ capTx
      rw [← h2]
      exact RingBuffer.store_char_length_le b _ (by omega)

theorem writeLoop_fits (capRx capTx : Nat) (data : List Byte) (quantity : Nat) :
    ∀ (n i : Nat) (w : TwoWire σ), quantity - i = n → Fits capRx capTx w →
      Fits capRx capTx (writeLoop data quantity i w).2 := by
  intro n
  induction n with
  | zero =>
    intro i w hn h
    rw [writeLoop_done data quantity i w (by omega)]
    exact h
  | succ n ih =>
    intro i w hn h
    rw [writeLoop_step data quantity i w (by omega)]
    split
    · exact write_fits capRx capTx _ w h
    · exact ih (i + 1) _ (by omega) (write_fits capRx capTx _ w h)

theorem endTransmissionLoop_tx_le (P : SERCOM σ) :
    ∀ (d : List Byte) (w : TwoWire σ), w.txBuffer.data = d →
      (endTransmissionLoop P w).2.txBuffer.data.length ≤ d.length := by
  intro d
  induction d with
  | nil =>
    intro w h
    rw [endTransmissionLoop_nil P w h, h]
  | cons c rest ih =>
    intro w h
    rw [endTransmissionLoop_cons P w c rest h]
    cases hs : (P.sendDataMasterWIRE c w.sercom).1
    · simp
    · simp only [if_true, List.length_cons]
      have := ih
        { w with sercom := (P.sendDataMasterWIRE c w.sercom).2,
                 txBuffer := { capacity := w.txBuffer.capacity, data := rest },
                 trace := w.trace ++ [Op.sendDataMasterWIRE c] } rfl
      omega

theorem endTransmission_fits (P : SERCOM σ) (capRx capTx : Nat) (stopBit : Bool)
    (w : TwoWire σ) (h : Fits capRx capTx w) :
    Fits capRx capTx (endTransmission P stopBit w).2 := by
  obtain ⟨h1, h2, h3, h4⟩ := h
  have hfr := endTransmissionLoop_frame P w.txBuffer.data
    (startTransmissionWIRE P w.txAddress SercomWireReadWriteFlag.WIRE_WRITE_FLAG
      { w with transmissionBegun := false }).2 rfl
  have hle := endTransmissionLoop_tx_le P w.txBuffer.data
    (startTransmissionWIRE P w.txAddress SercomWireReadWriteFlag.WIRE_WRITE_FLAG
      { w with transmissionBegun := false }).2 rfl
  obtain ⟨_, f2, _, f4⟩ := hfr
  have g : Fits capRx capTx (endTransmissionLoop P
      (startTransmissionWIRE P w.txAddress SercomWireReadWriteFlag.WIRE_WRITE_FLAG
        { w with transmissionBegun := false }).2).2 := by
    refine ⟨?_, ?_, ?_, ?_⟩
    · rw [f2]; exact h1
    · rw [f4]; exact h2
    · rw [f2]; exact h3
    · exact Nat.le_trans hle h4
  simp only [endTransmission]
  generalize endTransmissionLoop P _ = l at g ⊢
  split
  · exact ⟨h1, h2, h3, h4⟩
  · split
    · exact g
    · cases stopBit
      · exact g
      · exact g

theorem requestFrom_fits (P : SERCOM σ) (capRx capTx : Nat) (address : Byte)
    (quantity : Nat) (stopBit : Bool) (w : TwoWire σ) (h : Fits capRx capTx w) :
    Fits capRx capTx (requestFrom P address quantity stopBit w).2 := by
  obtain ⟨h1, h2, h3, h4⟩ := h
  by_cases hq : quantity = 0
  · subst hq
    rw [requestFrom_zero]
    exact ⟨h1, h2, h3, h4⟩
  · cases hs : (P.startTransmissionWIRE address SercomWireReadWriteFlag.WIRE_READ_FLAG
        w.sercom).1
    · rw [requestFrom_nack P address quantity stopBit w hq hs]
      exact ⟨h1, h2, Nat.zero_le _, h4⟩
    · obtain ⟨ops, _, _, g3, g4, _, g6, _⟩ :=
        requestFrom_spec P address quantity stopBit w hq hs
      refine ⟨by rw [g3, h1], by rw [g6, h2], ?_, by rw [g6]; exact h4⟩
      rw [g4, List.length_take, h1]
      omega

theorem read_fits (capRx capTx : Nat) (w : TwoWire σ) (h : Fits capRx capTx w) :
    Fits capRx capTx (read w).2 := by
  obtain ⟨h1, h2, h3, h4⟩ := h
  refine ⟨?_, h2, ?_, h4⟩
  · show w.rxBuffer.read_char.2.capacity = capRx
    rw [RingBuffer.read_char_capacity, h1]
  · exact Nat.le_trans (RingBuffer.read_char_length_le w.rxBuffer) h3

theorem callOnReceive_fits (capRx capTx : Nat) (cb : Callbacks σ)
    (hcb : CallbacksFit capRx capTx cb) (n : Int) (w : TwoWire σ)
    (h : Fits capRx capTx w) : Fits capRx capTx (callOnReceive cb n w) := by
  unfold callOnReceive
  split
  · exact h
  · next f hf => exact fits_of_buffers capRx capTx (f n w) _ rfl rfl (hcb.1 f hf n w h)

theorem callOnRequest_fits (capRx capTx : Nat) (cb : Callbacks σ)
    (hcb : CallbacksFit capRx capTx cb) (w : TwoWire σ)
    (h : Fits capRx capTx w) : Fits capRx capTx (callOnRequest cb w) := by
  unfold callOnRequest
  split
  · exact h
  · next f hf => exact fits_of_buffers capRx capTx (f w) _ rfl rfl (hcb.2 f hf w h)

theorem clear_rx_fits (capRx capTx : Nat) (w : TwoWire σ) (h : Fits capRx capTx w) :
    Fits capRx capTx { w with rxBuffer := w.rxBuffer.clear } :=
  ⟨h.1, h.2.1, Nat.zero_le _, h.2.2.2⟩

theorem clear_tx_fits (capRx capTx : Nat) (w : TwoWire σ) (b : Bool)
    (h : Fits capRx capTx w) :
    Fits capRx capTx { w with txBuffer := w.txBuffer.clear, transmissionBegun := b } :=
  ⟨h.1, h.2.1, h.2.2.1, Nat.zero_le _⟩

theorem onStopDetected_fits (P : SERCOM σ) (capRx capTx : Nat) (cb : Callbacks σ)
    (hcb : CallbacksFit capRx capTx cb) (w : TwoWire σ) (h : Fits capRx capTx w) :
    Fits capRx capTx (onStopDetected P cb w) := by
  unfold onStopDetected
  split
  · exact clear_rx_fits capRx capTx _ (callOnReceive_fits capRx capTx cb hcb _ _
      (fits_of_buffers capRx capTx w _ rfl rfl h))
  · exact h

theorem onAddressMatch_fits (P : SERCOM σ) (capRx capTx : Nat) (cb : Callbacks σ)
    (hcb : CallbacksFit capRx capTx cb) (w : TwoWire σ) (h : Fits capRx capTx w) :
    Fits capRx capTx (onAddressMatch P cb w) := by
  have h2 : Fits capRx capTx (prepareCommandBitsWire P (WireCommand.code 0x03)
      (prepareAckBitWIRE P w)) := fits_of_buffers capRx capTx w _ rfl rfl h
  unfold onAddressMatch
  split
  · dsimp only
    split
    · exact callOnRequest_fits capRx capTx cb hcb _ (clear_tx_fits capRx capTx _ true h2)
    · split
      · exact clear_rx_fits capRx capTx _ (callOnReceive_fits capRx capTx cb hcb _ _ h2)
      · exact h2
  · exact h

theorem dataReady_body_fits (P : SERCOM σ) (capRx capTx : Nat) (w : TwoWire σ)
    (h : Fits capRx capTx w) :
    Fits capRx capTx (onDataReady P w) := by
  obtain ⟨h1, h2, h3, h4⟩ := h
  unfold onDataReady
  split
  · split
    · dsimp only
      split
      · refine ⟨h1, ?_, h3, ?_⟩
        · show w.txBuffer.read_char.2.capacity = capTx
          rw [RingBuffer.read_char_capacity, h2]
        · exact Nat.le_trans (RingBuffer.read_char_length_le w.txBuffer) h4
      · exact ⟨h1, h2, h3, h4⟩
    · dsimp only
      split
      · exact ⟨h1, h2, h3, h4⟩
      · refine ⟨?_, h2, ?_, h4⟩
        · show (w.rxBuffer.store_char _).capacity = capRx
          rw [RingBuffer.store_char_capacity, h1]
        · show (w.rxBuffer.store_char _).data.length ≤ capRx
          rw [← h1]
          exact RingBuffer.store_char_length_le _ _ (by omega)
  · exact ⟨h1, h2, h3, h4⟩

theorem onService_fits (P : SERCOM σ) (capRx capTx : Nat) (cb : Callbacks σ)
    (hcb : CallbacksFit capRx capTx cb) (w : TwoWire σ) (h : Fits capRx capTx w) :
    Fits capRx capTx (onService P cb w) := by
  have h2 : Fits capRx capTx (prepareCommandBitsWire P (WireCommand.code 0x03)
      (prepareAckBitWIRE P w)) := fits_of_buffers capRx capTx w _ rfl rfl h
  have hd := dataReady_body_fits P capRx capTx w h
  unfold onDataReady at hd
  unfold onService
  split
  · rw [if_pos (by assumption)] at hd
    split
    · exact clear_rx_fits capRx capTx _ (callOnReceive_fits capRx capTx cb hcb _ _ h2)
    · split
      · dsimp only
        split
        · exact callOnRequest_fits capRx capTx cb hcb _ (clear_tx_fits capRx capTx _ true h2)
        · exact h2
      · split
        · exact hd
        · exact h
  · exact h

theorem step_fits (P : SERCOM σ) (capRx capTx : Nat) (cb : Callbacks σ)
    (hcb : CallbacksFit capRx capTx cb) (a : Action σ) (w : TwoWire σ)
    (h : Fits capRx capTx w) : Fits capRx capTx (step P cb a w) := by
  cases a with
  | beginTransmission address => exact ⟨h.1, h.2.1, h.2.2.1, Nat.zero_le _⟩
  | write b => exact write_fits capRx capTx b w h
  | writeBytes data quantity => exact writeLoop_fits capRx capTx data quantity _ 0 w rfl h
  | endTransmission stopBit => exact endTransmission_fits P capRx capTx stopBit w h
  | requestFrom address quantity stopBit =>
    exact requestFrom_fits P capRx capTx address quantity stopBit w h
  | read => exact read_fits capRx capTx w h
  | hardware hw => exact h
  | onStopDetected => exact onStopDetected_fits P capRx capTx cb hcb w h
  | onAddressMatch => exact onAddressMatch_fits P capRx capTx cb hcb w h
  | onDataReady => exact dataReady_body_fits P capRx capTx w h
  | onService => exact onService_fits P capRx capTx cb hcb w h

theorem run_fits (P : SERCOM σ) (capRx capTx : Nat) (cb : Callbacks σ)
    (hcb : CallbacksFit capRx capTx cb) :
    ∀ (acts : List (Action σ)) (w : TwoWire σ), Fits capRx capTx w →
      Fits capRx capTx (run P cb acts w) := by
  intro acts
  induction acts with
  | nil => intro w h; exact h
  | cons a acts ih =>
    intro w h
    exact ih (step P cb a w) (step_fits P capRx capTx cb hcb a w h)

theorem noCallbacks_fit (capRx capTx : Nat) :
    CallbacksFit capRx capTx (noCallbacks : Callbacks σ) := by
  constructor
  · intro f hf
    simp [noCallbacks] at hf
  · intro f hf
    simp [noCallbacks] at hf

theorem programCallbacks_fit (P : SERCOM σ) (capRx capTx : Nat)
    (recv : Int → List (Action σ)) (req : List (Action σ)) :
    CallbacksFit capRx capTx (programCallbacks P recv req) := by
  constructor
  · intro f hf n w h
    have hf2 : f = fun n w => run P noCallbacks (recv n) w := by
      simp only [programCallbacks, Option.some.injEq] at hf
      exact hf.symm
    subst hf2
    exact run_fits P capRx capTx noCallbacks (noCallbacks_fit capRx capTx) (recv n) w h
  · intro f hf w h
    have hf2 : f = fun w => run P noCallbacks req w := by
      simp only [programCallbacks, Option.some.injEq] at hf
      exact hf.symm
    subst hf2
    exact run_fits P capRx capTx noCallbacks (noCallbacks_fit capRx capTx) req w h

/-- Claim C14. In every state reached from the constructed driver by any sequence of API calls
(`beginTransmission`, `write`, `endTransmission`, `requestFrom`, `read`), hardware changes and
slave events, for any peripheral behaviour and any callbacks that keep the invariant (as
callbacks acting through the API do), both buffers keep their fixed capacity and hold no more
bytes than it; a store into a full buffer is rejected, leaving the buffer as it was. -/
theorem capacity_invariant (P : SERCOM σ) (cb : Callbacks σ) (capRx capTx : Nat) (hw : σ)
    (address : Byte) (acts : List (Action σ)) (hcb : CallbacksFit capRx capTx cb) :
    (run P cb acts (constructed capRx capTx hw address)).rxBuffer.capacity = capRx ∧
    (run P cb acts (constructed capRx capTx hw address)).txBuffer.capacity = capTx ∧
    (run P cb acts (constructed capRx capTx hw address)).rxBuffer.data.length ≤ capRx ∧
    (run P cb acts (constructed capRx capTx hw address)).txBuffer.data.length ≤ capTx ∧
    (∀ (r : RingBuffer) (c : Byte), r.capacity ≤ r.data.length → r.store_char c = r) :=
  have h := run_fits P capRx capTx cb hcb acts (constructed capRx capTx hw address)
    ⟨rfl, rfl, Nat.zero_le _, Nat.zero_le _⟩
  ⟨h.1, h.2.1, h.2.2.1, h.2.2.2, fun r c hr => RingBuffer.store_char_full c r hr⟩

theorem demoCallbacks_fit (capRx capTx : Nat) : CallbacksFit capRx capTx demoCallbacks := by
  constructor
  · intro f hf n w h
    have hf2 : f = fun _ v => (TwoWire.read v).2 := by
      simp only [demoCallbacks, Option.some.injEq] at hf
      exact hf.symm
    subst hf2
    exact read_fits capRx capTx w h
  · intro f hf
    simp [demoCallbacks] at hf

/-- Claim C14, witness: a run that tries to overfill both buffers of capacity 2. -/
theorem capacity_invariant_witness :
    (run demoSercom demoCallbacks demoRun
      (constructed 2 2 demoMasterHw 0)).rxBuffer.data.length ≤ 2 ∧
    (run demoSercom demoCallbacks demoRun
      (constructed 2 2 demoMasterHw 0)).txBuffer.data.length ≤ 2 :=
  have h := capacity_invariant demoSercom demoCallbacks 2 2 demoMasterHw 0 demoRun
    (demoCallbacks_fit 2 2)
  ⟨h.2.2.1, h.2.2.2.1⟩

end Theorems

end Wire
